import Mathlib

/-!
Verification of the MediaSync SFU-to-HLS bridging server.

The TypeScript sources are shallowly embedded: strings are `List Char`,
JS template-literal interpolation of numbers is `natToChars` (decimal
rendering), JS `Math` operations on numbers that the code only ever
applies to small naturals are embedded as exact natural-number
arithmetic, and the effectful orchestration code is embedded as explicit
effect traces.  All definitions are executable.
-/

namespace MediaSync

/-! ## String primitives (embedding JS string operations over `List Char`) -/

/-- The decimal digit character for `d < 10`. -/
def digitChar (d : Nat) : Char := Char.ofNat (48 + d)

/-- Decimal rendering of a natural number, embedding the JS
template-literal interpolation of a number (for naturals). -/
def natToChars (n : Nat) : List Char :=
  if _ : n < 10 then [digitChar n]
  else natToChars (n / 10) ++ [digitChar (n % 10)]
termination_by n
decreasing_by exact Nat.div_lt_self (by omega) (by omega)

/-- Value of a string of decimal digits (base-10 left fold). -/
def digitsVal (l : List Char) : Nat :=
  l.foldl (fun a c => 10 * a + (c.toNat - 48)) 0

/-- `Array.prototype.join(sep)` for a one-character separator. -/
def joinWith (sep : Char) : List (List Char) → List Char
  | [] => []
  | [f] => f
  | f :: rest => f ++ sep :: joinWith sep rest

/-- `String.prototype.split(sep)` for a one-character separator. -/
def splitOnChar (sep : Char) : List Char → List (List Char)
  | [] => [[]]
  | c :: cs =>
    let r := splitOnChar sep cs
    if c = sep then [] :: r
    else
      match r with
      | [] => [[c]]
      | h :: t => (c :: h) :: t

/-- `String.prototype.includes(pat)`: some suffix of `l` starts with `pat`. -/
def hasInfix (pat : List Char) : List Char → Bool
  | [] => pat.isPrefixOf ([] : List Char)
  | c :: rest => pat.isPrefixOf (c :: rest) || hasInfix pat rest

/-- ASCII `String.prototype.toLowerCase` on one character (the sources
only ever case-map ASCII MIME types), written as a literal table. -/
def lowChar : Char → Char
  | 'A' => 'a' | 'B' => 'b' | 'C' => 'c' | 'D' => 'd' | 'E' => 'e' | 'F' => 'f'
  | 'G' => 'g' | 'H' => 'h' | 'I' => 'i' | 'J' => 'j' | 'K' => 'k' | 'L' => 'l'
  | 'M' => 'm' | 'N' => 'n' | 'O' => 'o' | 'P' => 'p' | 'Q' => 'q' | 'R' => 'r'
  | 'S' => 's' | 'T' => 't' | 'U' => 'u' | 'V' => 'v' | 'W' => 'w' | 'X' => 'x'
  | 'Y' => 'y' | 'Z' => 'z' | c => c

/-- ASCII `String.prototype.toUpperCase` on one character. -/
def upChar : Char → Char
  | 'a' => 'A' | 'b' => 'B' | 'c' => 'C' | 'd' => 'D' | 'e' => 'E' | 'f' => 'F'
  | 'g' => 'G' | 'h' => 'H' | 'i' => 'I' | 'j' => 'J' | 'k' => 'K' | 'l' => 'L'
  | 'm' => 'M' | 'n' => 'N' | 'o' => 'O' | 'p' => 'P' | 'q' => 'Q' | 'r' => 'R'
  | 's' => 'S' | 't' => 'T' | 'u' => 'U' | 'v' => 'V' | 'w' => 'W' | 'x' => 'X'
  | 'y' => 'Y' | 'z' => 'Z' | c => c

def lowerStr (l : List Char) : List Char := l.map lowChar

def upperStr (l : List Char) : List Char := l.map upChar

/-- `mimeType.split("/")[1]`: the characters after the first `/` and
before the next one. -/
def subtypeOf (l : List Char) : List Char :=
  ((l.dropWhile (fun c => c ≠ '/')).drop 1).takeWhile (fun c => c ≠ '/')

/-- Leading-digit-run parser: `parseInt` on a string that starts with at
least one digit (the only way the sources consume captured digits). -/
def readNat (l : List Char) : Option Nat :=
  let ds := l.takeWhile Char.isDigit
  if ds.isEmpty then none else some (digitsVal ds)

/-! ## Layout engine: `buildFilterComplex` (src/ffmpeg/combinedHLSBridge.ts:41-97)

`Math.ceil(Math.sqrt(n))` and `Math.ceil(a / b)` are embedded as exact
natural-number ceilings (the doubles involved are exact for the
participant counts the server can see), and `Math.floor(w / c)` is `Nat`
division. -/

structure Layout where
  width : Nat
  height : Nat

/-- `Math.ceil(Math.sqrt(n))` on naturals. -/
def ceilSqrt (n : Nat) : Nat :=
  if Nat.sqrt n * Nat.sqrt n = n then Nat.sqrt n else Nat.sqrt n + 1

/-- `Math.ceil(a / b)` on naturals (`b > 0` at every call site). -/
def ceilDiv (a b : Nat) : Nat := (a + b - 1) / b

/-- `[${i}:v]fps=${targetFps}[vfps${i}]` -/
def fpsFilter (targetFps i : Nat) : List Char :=
  ("[").data ++ natToChars i ++ (":v]fps=").data ++ natToChars targetFps
    ++ ("[vfps").data ++ natToChars i ++ ("]").data

/-- The single-input scale/pad branch (combinedHLSBridge.ts:56). -/
def scaleSingleFilter (w h : Nat) : List Char :=
  ("[vfps0]scale=").data ++ natToChars w ++ (":").data ++ natToChars h
    ++ (":force_original_aspect_ratio=decrease,pad=").data
    ++ natToChars w ++ (":").data ++ natToChars h
    ++ (":(ow-iw)/2:(oh-ih)/2:color=black[v]").data

/-- The per-cell scale/pad filter (combinedHLSBridge.ts:68). -/
def cellScaleFilter (cw ch i : Nat) : List Char :=
  ("[vfps").data ++ natToChars i ++ ("]scale=").data
    ++ natToChars cw ++ (":").data ++ natToChars ch
    ++ (":force_original_aspect_ratio=decrease,pad=").data
    ++ natToChars cw ++ (":").data ++ natToChars ch
    ++ (":(ow-iw)/2:(oh-ih)/2:color=black[v").data ++ natToChars i ++ ("]").data

/-- `[v${idx}]` -/
def vLabel (i : Nat) : List Char := ("[v").data ++ natToChars i ++ ("]").data

/-- `[r${row}]` -/
def rLabel (r : Nat) : List Char := ("[r").data ++ natToChars r ++ ("]").data

/-- `${rowInputs.join('')}hstack=inputs=${rowInputs.length}[r${row}]` -/
def hstackFilter (labels : List (List Char)) (row : Nat) : List Char :=
  labels.flatten ++ ("hstack=inputs=").data ++ natToChars labels.length
    ++ ("[r").data ++ natToChars row ++ ("]").data

/-- `${rowLabels[0]}copy[v]` -/
def copyFilter (label : List Char) : List Char := label ++ ("copy[v]").data

/-- `${rowLabels.join('')}vstack=inputs=${rowLabels.length}[v]` -/
def vstackFilter (labels : List (List Char)) : List Char :=
  labels.flatten ++ ("vstack=inputs=").data ++ natToChars labels.length
    ++ ("[v]").data

/-- The labels collected for one grid row: the inner `for col` loop of
combinedHLSBridge.ts:75-79, whose `break` at `idx >= inputCount` is a
`takeWhile` on the increasing index sequence. -/
def gridRow (n cols r : Nat) : List (List Char) :=
  ((((List.range cols).map (fun col => r * cols + col)).takeWhile
    (fun idx => idx < n))).map vLabel

/-- The outer `for row` loop of combinedHLSBridge.ts:72-87, accumulating
pushed hstack filters (first component) and row labels (second). -/
def gridLoop (n cols rows : Nat) : List (List Char) × List (List Char) :=
  (List.range rows).foldl
    (fun acc r =>
      match gridRow n cols r with
      | [] => acc
      | [l] => (acc.1, acc.2 ++ [l])
      | ls => (acc.1 ++ [hstackFilter ls r], acc.2 ++ [rLabel r]))
    ([], [])

/-- The final row-stacking filter (combinedHLSBridge.ts:90-94):
`copy` when exactly one row label exists, `vstack` otherwise. -/
def gridFinal (labels : List (List Char)) : List Char :=
  match labels with
  | [l] => copyFilter l
  | ls => vstackFilter ls

/-- The filter list built by `buildFilterComplex` before joining. -/
def buildFilters (inputCount : Nat) (layout : Layout) (targetFps : Nat) :
    List (List Char) :=
  let fpsF := (List.range inputCount).map (fpsFilter targetFps)
  if inputCount = 1 then
    fpsF ++ [scaleSingleFilter layout.width layout.height]
  else
    let cols := ceilSqrt inputCount
    let rows := ceilDiv inputCount cols
    let cw := layout.width / cols
    let ch := layout.height / rows
    let scaleF := (List.range inputCount).map (cellScaleFilter cw ch)
    let grid := gridLoop inputCount cols rows
    fpsF ++ scaleF ++ grid.1 ++ [gridFinal grid.2]

/-- `buildFilterComplex` (combinedHLSBridge.ts:41-97).  The
`audioInputCount` parameter is accepted and ignored, exactly as in the
source. -/
def buildFilterComplex (inputCount audioInputCount : Nat) (layout : Layout)
    (targetFps : Nat) : List Char :=
  joinWith ';' (buildFilters inputCount layout targetFps)

/-- A filter string whose final output label is the combined-video label
`[v]`. -/
def endsWithV (l : List Char) : Bool := (("[v]").data).isSuffixOf l

/-! ### Spec-side reconstruction of the grid algorithm (spec §4.3)

These definitions follow the specification's wording — `columns =
ceil(sqrt(N))`, `rows = ceil(N / columns)`, row `r` holding the inputs
`r*columns ..< min((r+1)*columns, N)`, one hstack per multi-input row, a
row with a single input keeping that input's label — and are compared
with the loop-shaped source translation `gridLoop`. -/

/-- Number of inputs the spec assigns to grid row `r`. -/
def specRowLen (n cols r : Nat) : Nat := min cols (n - r * cols)

/-- The horizontal-stack filters the spec prescribes: one per row that
holds at least two inputs. -/
def specStackFilters (n cols rows : Nat) : List (List Char) :=
  (List.range rows).filterMap (fun r =>
    if 2 ≤ specRowLen n cols r then
      some (hstackFilter ((List.range' (r * cols) (specRowLen n cols r)).map vLabel) r)
    else none)

/-- The per-row labels the spec prescribes: a single-input row keeps the
input's label, a stacked row gets the row label. -/
def specRowLabels (n cols rows : Nat) : List (List Char) :=
  (List.range rows).map (fun r =>
    if specRowLen n cols r = 1 then vLabel (r * cols) else rLabel r)

/-! ## Relay-endpoint port layout (combinedHLSBridge.ts:237-242) -/

/-- `const basePort = 20000 + (inputIndex * 4)` -/
def combinedBasePort (inputIndex : Nat) : Nat := 20000 + inputIndex * 4

def combinedVideoRtpPort (i : Nat) : Nat := combinedBasePort i

def combinedVideoRtcpPort (i : Nat) : Nat := combinedBasePort i + 1

def combinedAudioRtpPort (i : Nat) : Nat := combinedBasePort i + 2

def combinedAudioRtcpPort (i : Nat) : Nat := combinedBasePort i + 3

/-- The four ports a combined rebuild reserves for input `i`. -/
def combinedPortsOf (i : Nat) : List Nat :=
  [combinedVideoRtpPort i, combinedVideoRtcpPort i,
   combinedAudioRtpPort i, combinedAudioRtcpPort i]

/-! ## Readiness gate: `waitForSdpReady` (combinedHLSBridge.ts:8-38)

The polling loop runs `check` immediately and then every 150 ms; time is
idealised to exactly `150 * k` at poll `k` (`setTimeout` only guarantees
at-least, which can only make the rejection earlier in poll count).  The
two JS regexes are embedded as greedy scanning matchers without
backtracking, which agrees with the regexes on the SDP media lines this
server generates (space-separated fields). -/

/-- JS `\s` on the ASCII range. -/
def isJsWs (c : Char) : Bool :=
  c = ' ' || c = '\t' || c = '\n' || c = '\r' || c = '\x0b' || c = '\x0c'

/-- Match a literal, returning the remainder. -/
def dropLit? (pat l : List Char) : Option (List Char) :=
  if pat.isPrefixOf l then some (l.drop pat.length) else none

/-- One-or-more digits (`\d+`), greedy. -/
def readDigits1 (l : List Char) : Option (Nat × List Char) :=
  let ds := l.takeWhile Char.isDigit
  if ds.isEmpty then none else some (digitsVal ds, l.dropWhile Char.isDigit)

/-- One-or-more whitespace (`\s+`), greedy. -/
def dropWs1 (l : List Char) : Option (List Char) :=
  if (l.takeWhile isJsWs).isEmpty then none else some (l.dropWhile isJsWs)

/-- `/a=framesize:(\d+)\s+(\d+)/` anchored at the start of `l`. -/
def framesizeAt (l : List Char) : Option (Nat × Nat) :=
  match dropLit? (("a=framesize:").data) l with
  | none => none
  | some r1 =>
    match readDigits1 r1 with
    | none => none
    | some (w, r2) =>
      match dropWs1 r2 with
      | none => none
      | some r3 =>
        match readDigits1 r3 with
        | none => none
        | some (h, _) => some (w, h)

/-- `/m=video \d+ [^ ]+ (\d+) (\d+)/` anchored at the start of `l`
(greedy, without backtracking into the `[^ ]+` token). -/
def mVideoSizeAt (l : List Char) : Option (Nat × Nat) :=
  match dropLit? (("m=video ").data) l with
  | none => none
  | some r1 =>
    match readDigits1 r1 with
    | none => none
    | some (_, r2) =>
      match dropLit? ([' ']) r2 with
      | none => none
      | some r3 =>
        let tok := r3.takeWhile (fun c => c ≠ ' ')
        if tok.isEmpty then none
        else
          match dropLit? ([' ']) (r3.dropWhile (fun c => c ≠ ' ')) with
          | none => none
          | some r4 =>
            match readDigits1 r4 with
            | none => none
            | some (w, r5) =>
              match dropLit? ([' ']) r5 with
              | none => none
              | some r6 =>
                match readDigits1 r6 with
                | none => none
                | some (h, _) => some (w, h)

/-- First match of an anchored matcher over all start positions
(`String.prototype.match` leftmost semantics). -/
def scanFirst (f : List Char → Option (Nat × Nat)) : List Char → Option (Nat × Nat)
  | [] => f []
  | c :: rest =>
    match f (c :: rest) with
    | some r => some r
    | none => scanFirst f rest

/-- `content.match(regexA) || content.match(regexB)` (combinedHLSBridge.ts:20). -/
def sdpSizeMatch (content : List Char) : Option (Nat × Nat) :=
  match scanFirst framesizeAt content with
  | some r => some r
  | none => scanFirst mVideoSizeAt content

/-- One file's readiness check (combinedHLSBridge.ts:14-30): the file
exists, the size regex matches, and both captures parse non-zero. -/
def sdpFileReady (c : Option (List Char)) : Bool :=
  match c with
  | none => false
  | some content =>
    match sdpSizeMatch content with
    | none => false
    | some (w, h) => decide (w ≠ 0) && decide (h ≠ 0)

/-- `allReady` for one poll over the descriptor paths. -/
def checkAllReady (fs : String → Option (List Char)) (paths : List String) : Bool :=
  paths.all (fun p => sdpFileReady (fs p))

/-- The poll interval (combinedHLSBridge.ts:34). -/
def pollIntervalMs : Nat := 150

inductive GateOutcome where
  | ready (k : Nat)
  | failed (k : Nat)
deriving DecidableEq

/-- The polling loop of `waitForSdpReady`: `fsAt t` is the file system at
time `t`; poll `k` happens at time `pollIntervalMs * k`; `fuel` bounds
the number of polls (`none` = fuel exhausted). -/
def waitForSdpReadyRun (fsAt : Nat → String → Option (List Char))
    (paths : List String) (timeoutMs : Nat) : Nat → Nat → Option GateOutcome
  | 0, _ => none
  | fuel + 1, k =>
    if checkAllReady (fsAt (pollIntervalMs * k)) paths then some (.ready k)
    else if pollIntervalMs * k > timeoutMs then some (.failed k)
    else waitForSdpReadyRun fsAt paths timeoutMs fuel (k + 1)

/-- The timeout passed at the composite call site (combinedHLSBridge.ts:374). -/
def combinedSdpTimeoutMs : Nat := 10000

/-! ## Rebuild retry structure (combinedHLSBridge.ts:372-379) -/

/-- The fixed backoff before a rescheduled rebuild. -/
def combinedRetryDelayMs : Nat := 2000

/-- Retry structure of `setupCombinedHlsStream`: attempt `i` runs the
readiness gate; when it rejects, the catch branch unconditionally
schedules a fresh full invocation after `combinedRetryDelayMs` — there
is no retry counter.  `gateOk i` is the gate outcome of attempt `i`,
`fuel` bounds the recursion; the result counts the attempts made. -/
def combinedRebuildAttempts (gateOk : Nat → Bool) : Nat → Nat → Nat
  | _, 0 => 0
  | i, fuel + 1 =>
    1 + if gateOk i then 0 else combinedRebuildAttempts gateOk (i + 1) fuel

/-! ## Effect trace of `setupCombinedHlsStream` (combinedHLSBridge.ts:108-517)

The body of the async function is embedded as the list of side effects
it issues, in program order.  `failAt = some k` models an exception
thrown after `k` body effects (the `catch` swallows it and the `finally`
still runs); `none` is the exception-free run. -/

structure SessionInfo where
  hasVideo : Bool
  hasAudio : Bool
deriving DecidableEq

structure CombinedEnv where
  /-- `combinedHlsFfmpegProcess !== null` on entry. -/
  hasProcess : Bool
  /-- `producerResources.has("combined-stream")` on entry. -/
  hasResources : Bool
  /-- The `sessions` map in iteration order. -/
  sessions : List SessionInfo
  /-- `config.maxParticipants`. -/
  maxParticipants : Nat
  /-- Outcome of the `waitForSdpReady` gate. -/
  gateOk : Bool
deriving DecidableEq

inductive Effect where
  | killProcess
  | closeConsumers
  | closeTransports
  | clearPlaylistTimer
  | deleteResourcesKey
  | resetHlsDir
  | createVideoTransport (i : Nat)
  | connectVideoTransport (i : Nat)
  | createVideoConsumer (i : Nat)
  | writeVideoSdp (i : Nat)
  | createAudioTransport (i : Nat)
  | connectAudioTransport (i : Nat)
  | createAudioConsumer (i : Nat)
  | writeAudioSdp (i : Nat)
  | scheduleRetry
  | spawnProcess
  | startPlaylistTimer
  | storeResources
  | setGuard
  | clearGuard
deriving DecidableEq

/-- Release of an old session's resources: kill process, close
consumptions, close endpoints, clear the publish timer. -/
def Effect.isTeardown : Effect → Bool
  | .killProcess | .closeConsumers | .closeTransports | .clearPlaylistTimer => true
  | _ => false

/-- Allocation of a new session resource: transport, consumer,
descriptor file, or external process. -/
def Effect.isAlloc : Effect → Bool
  | .createVideoTransport _ | .createVideoConsumer _ | .writeVideoSdp _
  | .createAudioTransport _ | .createAudioConsumer _ | .writeAudioSdp _
  | .spawnProcess => true
  | _ => false

/-- Lines 189-202: kill the old process, then close the old consumers
and transports, clear the old publish interval, and drop the key. -/
def teardownTrace (env : CombinedEnv) : List Effect :=
  (if env.hasProcess then [Effect.killProcess] else [])
    ++ (if env.hasResources then
          [Effect.closeConsumers, Effect.closeTransports,
           Effect.clearPlaylistTimer, Effect.deleteResourcesKey]
        else [])

/-- Lines 244-362: resources allocated for one video-producing session. -/
def allocOneInput (i : Nat) (s : SessionInfo) : List Effect :=
  [Effect.createVideoTransport i, Effect.connectVideoTransport i,
   Effect.createVideoConsumer i, Effect.writeVideoSdp i]
    ++ (if s.hasAudio then
          [Effect.createAudioTransport i, Effect.connectAudioTransport i,
           Effect.createAudioConsumer i, Effect.writeAudioSdp i]
        else [])

/-- The sessions the input loop processes: those with a video producer,
cut off at `maxParticipants` (the loop's `continue`/`break`). -/
def videoSessions (env : CombinedEnv) : List SessionInfo :=
  (env.sessions.filter (fun s => s.hasVideo)).take env.maxParticipants

def allocTrace (env : CombinedEnv) : List Effect :=
  (videoSessions env).enum.flatMap (fun p => allocOneInput p.1 p.2)

/-- Everything the body does after the teardown block: directory reset,
the early return on an empty session map, the allocation loop, the early
return when no video inputs exist, then gate-dependent spawn or retry. -/
def postTeardownTrace (env : CombinedEnv) : List Effect :=
  [Effect.resetHlsDir]
    ++ (if env.sessions.length = 0 then []
        else allocTrace env
          ++ (if (videoSessions env).length = 0 then []
              else if env.gateOk then
                [Effect.spawnProcess, Effect.startPlaylistTimer, Effect.storeResources]
              else [Effect.scheduleRetry]))

/-- The whole body in program order. -/
def bodyTrace (env : CombinedEnv) : List Effect :=
  teardownTrace env ++ postTeardownTrace env

/-- `setupCombinedHlsStream`: the guard test and `return` (lines
179-183) happen before any effect; otherwise the guard is set, the body
runs (possibly cut short by an exception), and the `finally` block
clears the guard.  Returns the effect trace and the final guard value. -/
def setupCombinedHlsStream (isUpdating : Bool) (env : CombinedEnv)
    (failAt : Option Nat) : List Effect × Bool :=
  if isUpdating then ([], isUpdating)
  else
    let body :=
      match failAt with
      | none => bodyTrace env
      | some k => (bodyTrace env).take k
    (Effect.setGuard :: body ++ [Effect.clearGuard], false)

/-- A sample environment with one live session to re-acquire. -/
def sampleEnv : CombinedEnv :=
  { hasProcess := true, hasResources := true,
    sessions := [{ hasVideo := true, hasAudio := true }],
    maxParticipants := 16, gateOk := true }

/-! ## Descriptor synthesis: `createSdpFile` (src/index.ts:750-820, and the
identical copy at compositeFFmpegBridge's host module)

`codec.parameters` is read only at the keys `packetization-mode` and
`profile-level-id`; those two entries are modelled directly, with `none`
embedding an absent (or falsy) entry. -/

structure RtpCodec where
  mimeType : String
  clockRate : Nat
  /-- `codec.channels`; `none` embeds JS `undefined`. -/
  channels : Option Nat
  /-- `codec.parameters["packetization-mode"]`. -/
  packetizationMode : Option String
  /-- `codec.parameters["profile-level-id"]`. -/
  profileLevelId : Option String

def crlf : List Char := ("\r\n").data

/-- `mime.includes("audio")` on the lowercased MIME type. -/
def mimeIsAudioOf (mt : List Char) : Bool := hasInfix (("audio").data) (lowerStr mt)

/-- `mime.includes("video")` on the lowercased MIME type. -/
def mimeIsVideoOf (mt : List Char) : Bool := hasInfix (("video").data) (lowerStr mt)

def mimeHasOf (pat : String) (mt : List Char) : Bool := hasInfix pat.data (lowerStr mt)

def mimeIsAudio (codec : RtpCodec) : Bool := mimeIsAudioOf codec.mimeType.data

def mimeIsVideo (codec : RtpCodec) : Bool := mimeIsVideoOf codec.mimeType.data

def mimeHas (pat : String) (codec : RtpCodec) : Bool := mimeHasOf pat codec.mimeType.data

/-- The codec-name computation of `createSdpFile`: a fixed table on the
known families, uppercase-of-subtype otherwise. -/
def sdpCodecNameOf (mt : List Char) : List Char :=
  if mimeIsAudioOf mt then
    if mimeHasOf ("opus") mt then ("OPUS").data
    else if mimeHasOf ("aac") mt then ("MPEG4-GENERIC").data
    else upperStr (subtypeOf mt)
  else if mimeIsVideoOf mt then
    if mimeHasOf ("vp8") mt then ("VP8").data
    else if mimeHasOf ("vp9") mt then ("VP9").data
    else if mimeHasOf ("h264") mt then ("H264").data
    else upperStr (subtypeOf mt)
  else []

def sdpCodecName (codec : RtpCodec) : List Char := sdpCodecNameOf codec.mimeType.data

/-- The `fmtp` parameter list of `createSdpFile`: `profile-level-id` for
the AAC audio family, `packetization-mode` and `profile-level-id` for
the H264 video family, nothing otherwise. -/
def sdpFmtpParams (codec : RtpCodec) : List (List Char) :=
  if mimeIsAudio codec then
    if mimeHas ("opus") codec then []
    else if mimeHas ("aac") codec then
      match codec.profileLevelId with
      | some v => [("profile-level-id=").data ++ v.data]
      | none => []
    else []
  else if mimeIsVideo codec then
    if mimeHas ("vp8") codec then []
    else if mimeHas ("vp9") codec then []
    else if mimeHas ("h264") codec then
      (match codec.packetizationMode with
       | some v => [("packetization-mode=").data ++ v.data]
       | none => [])
      ++ (match codec.profileLevelId with
          | some v => [("profile-level-id=").data ++ v.data]
          | none => [])
    else []
  else []

/-- The `fmtp` line (empty when no parameters apply). -/
def sdpFmtp (codec : RtpCodec) (payloadType : Nat) : List Char :=
  match sdpFmtpParams codec with
  | [] => []
  | ps => ("a=fmtp:").data ++ natToChars payloadType ++ [' ']
      ++ joinWith ';' ps ++ crlf

/-- `codec.channels || 2`. -/
def sdpChannels (codec : RtpCodec) : Nat :=
  match codec.channels with
  | some (n + 1) => n + 1
  | _ => 2

/-- The media block: `m=` line plus `a=rtpmap` line (audio carries the
channel count, video does not). -/
def sdpMLine (codec : RtpCodec) (payloadType rtpPort : Nat) : List Char :=
  if mimeIsAudio codec then
    ("m=audio ").data ++ natToChars rtpPort ++ (" RTP/AVP ").data
      ++ natToChars payloadType ++ crlf
      ++ ("a=rtpmap:").data ++ natToChars payloadType ++ [' ']
      ++ sdpCodecName codec ++ ['/'] ++ natToChars codec.clockRate
      ++ ['/'] ++ natToChars (sdpChannels codec) ++ crlf
  else if mimeIsVideo codec then
    ("m=video ").data ++ natToChars rtpPort ++ (" RTP/AVP ").data
      ++ natToChars payloadType ++ crlf
      ++ ("a=rtpmap:").data ++ natToChars payloadType ++ [' ']
      ++ sdpCodecName codec ++ ['/'] ++ natToChars codec.clockRate ++ crlf
  else []

def sdpSessionHeader : List Char :=
  ("v=0\r\no=- 0 0 IN IP4 127.0.0.1\r\ns=mediasoup\r\nc=IN IP4 127.0.0.1\r\nt=0 0\r\n").data

/-- `createSdpFile` (src/index.ts:750-820). -/
def createSdpFile (codec : RtpCodec) (payloadType rtpPort rtcpPort : Nat) : List Char :=
  sdpSessionHeader ++ sdpMLine codec payloadType rtpPort
    ++ sdpFmtp codec payloadType
    ++ ("a=sendonly").data ++ crlf ++ ("a=rtcp:").data ++ natToChars rtcpPort ++ crlf

/-! ### Claim-side parsers (spec §8, the round-trip property's reading
of payload type and clock rate back out of the descriptor text) -/

/-- Payload type: fourth space-separated field of the `m=video` line. -/
def parseSdpVideoPayloadType (s : List Char) : Option Nat :=
  match (splitOnChar '\n' s).find? (fun l => (("m=video ").data).isPrefixOf l) with
  | none => none
  | some l =>
    match splitOnChar ' ' l with
    | _ :: _ :: _ :: f :: _ => readNat f
    | _ => none

/-- Clock rate: in the `a=rtpmap:` line, the digits after the first `/`
that follows the codec name. -/
def parseSdpClockRate (s : List Char) : Option Nat :=
  match (splitOnChar '\n' s).find? (fun l => (("a=rtpmap:").data).isPrefixOf l) with
  | none => none
  | some l =>
    readNat (((((l.drop 9).dropWhile (fun c => c ≠ ' ')).drop 1).dropWhile
      (fun c => c ≠ '/')).drop 1)

/-! ## Publish loops and segment durations

The per-producer HLS bridge (src/unnamed/part_000, `setupHlsFfmpegBridge`)
and the composite bridge (src/ffmpeg/compositeFFmpegBridge.ts).  Paths
are opaque parameters of the argv builders. -/

/-- The `-hls_time` value of the per-producer bridge (part_000:155). -/
def hlsBridgeHlsTime : String := "2"

/-- The per-producer publish-loop period (part_000:188). -/
def hlsBridgeCopyIntervalMs : Nat := 2000

/-- The `-hls_time` value of the composite bridge
(compositeFFmpegBridge.ts:386). -/
def compositeHlsTime : String := "2"

/-- The composite publish-loop period (compositeFFmpegBridge.ts:90). -/
def compositeCopyIntervalMs : Nat := 1000

/-- FFmpeg argv of the per-producer HLS bridge (part_000:127-160). -/
def hlsBridgeFfmpegArgs (hasVideo hasAudio : Bool)
    (sdpPath segPath playlistPath : String) : List String :=
  ["-protocol_whitelist", "file,udp,rtp", "-f", "sdp", "-i", sdpPath]
    ++ (if hasVideo then
          ["-c:v", "libx264", "-preset", "ultrafast", "-tune", "zerolatency",
           "-profile:v", "baseline", "-pix_fmt", "yuv420p", "-g", "30",
           "-keyint_min", "30", "-sc_threshold", "0", "-b:v", "500k",
           "-maxrate", "500k", "-bufsize", "1000k"]
        else [])
    ++ (if hasAudio then ["-c:a", "aac", "-b:a", "128k"] else [])
    ++ ["-f", "hls", "-hls_time", hlsBridgeHlsTime, "-hls_list_size", "5",
        "-hls_flags", "delete_segments+append_list",
        "-hls_segment_filename", segPath, playlistPath]

/-- The HLS-output argv appended by `restartCompositeFFmpeg`
(compositeFFmpegBridge.ts:384-392). -/
def compositeHlsOutputArgs (segPath playlistPath : String) : List String :=
  ["-f", "hls", "-hls_time", compositeHlsTime, "-hls_list_size", "5",
   "-hls_flags",
   "delete_segments+append_list+program_date_time+split_by_time+independent_segments",
   "-hls_segment_type", "mpegts", "-hls_segment_filename", segPath, playlistPath]

/-- The value following a flag in an argv list. -/
def argValueAfter (flag : String) : List String → Option String
  | [] => none
  | [_] => none
  | a :: b :: rest => if a = flag then some b else argValueAfter flag (b :: rest)

/-- An `-hls_time` value (whole seconds) in milliseconds. -/
def msOfHlsTime (v : String) : Option Nat :=
  match readNat v.data with
  | none => none
  | some n => some (n * 1000)

/-! ### Marker: end of definitions (theorems below) -/

/-! ## Basic lemmas about the string primitives -/

theorem digitChar_isDigit {d : Nat} (h : d < 10) : (digitChar d).isDigit = true := by
  interval_cases d <;> decide

theorem digitChar_toNat {d : Nat} (h : d < 10) : (digitChar d).toNat = 48 + d := by
  interval_cases d <;> decide

theorem natToChars_ne_nil (n : Nat) : natToChars n ≠ [] := by
  rw [natToChars]
  split
  · simp
  · simp

theorem natToChars_all_digit (n : Nat) : ∀ c ∈ natToChars n, c.isDigit = true := by
  induction n using Nat.strong_induction_on with
  | _ n ih =>
    rw [natToChars]
    split
    · intro c hc
      simp only [List.mem_singleton] at hc
      subst hc
      exact digitChar_isDigit (by omega)
    · intro c hc
      rw [List.mem_append] at hc
      rcases hc with hc | hc
      · exact ih (n / 10) (Nat.div_lt_self (by omega) (by omega)) c hc
      · simp only [List.mem_singleton] at hc
        subst hc
        exact digitChar_isDigit (Nat.mod_lt _ (by omega))

theorem digit_ne_of_not_digit {c d : Char} (hc : c.isDigit = true)
    (hd : d.isDigit = false) : c ≠ d := by
  intro h
  subst h
  rw [hc] at hd
  exact absurd hd (by simp)

theorem digitsVal_append_digit (l : List Char) {d : Nat} (h : d < 10) :
    digitsVal (l ++ [digitChar d]) = 10 * digitsVal l + d := by
  unfold digitsVal
  rw [List.foldl_append]
  simp [digitChar_toNat h]

theorem digitsVal_natToChars (n : Nat) : digitsVal (natToChars n) = n := by
  induction n using Nat.strong_induction_on with
  | _ n ih =>
    rw [natToChars]
    split
    · next h =>
      show digitsVal [digitChar n] = n
      unfold digitsVal
      simp [digitChar_toNat h]
    · next h =>
      rw [digitsVal_append_digit _ (Nat.mod_lt _ (by omega)),
        ih (n / 10) (Nat.div_lt_self (by omega) (by omega))]
      omega

theorem takeWhile_append_all {p : Char → Bool} {a : List Char}
    (h : ∀ c ∈ a, p c = true) (b : List Char) :
    (a ++ b).takeWhile p = a ++ b.takeWhile p := by
  induction a with
  | nil => simp
  | cons c cs ih =>
    simp only [List.cons_append, List.takeWhile_cons]
    rw [h c (by simp)]
    simp only [if_true]
    rw [ih (fun x hx => h x (by simp [hx]))]

theorem dropWhile_append_all {p : Char → Bool} {a : List Char}
    (h : ∀ c ∈ a, p c = true) (b : List Char) :
    (a ++ b).dropWhile p = b.dropWhile p := by
  induction a with
  | nil => simp
  | cons c cs ih =>
    simp only [List.cons_append, List.dropWhile_cons]
    rw [h c (by simp)]
    simp only [if_true]
    exact ih (fun x hx => h x (by simp [hx]))

theorem takeWhile_cons_neg {p : Char → Bool} {c : Char} (h : p c = false)
    (l : List Char) : (c :: l).takeWhile p = [] := by
  simp [List.takeWhile_cons, h]

theorem readNat_digits_prefix {rest : List Char} (n : Nat)
    (hrest : ∀ c ∈ rest.take 1, c.isDigit = false) :
    readNat (natToChars n ++ rest) = some n := by
  unfold readNat
  rw [takeWhile_append_all (natToChars_all_digit n)]
  have hrest' : rest.takeWhile Char.isDigit = [] := by
    cases rest with
    | nil => rfl
    | cons c cs => exact takeWhile_cons_neg (hrest c (by simp)) cs
  rw [hrest', List.append_nil]
  simp only [List.isEmpty_iff, natToChars_ne_nil n, if_false]
  rw [digitsVal_natToChars]

/-! ## Lemmas about the layout engine -/

theorem not_endsWithV_digit_close (a : List Char) (n : Nat) :
    endsWithV (a ++ natToChars n ++ [']']) = false := by
  rw [Bool.eq_false_iff]
  intro h
  rw [endsWithV, List.isSuffixOf_iff_suffix, ← List.reverse_prefix] at h
  simp only [List.reverse_append] at h
  obtain ⟨t, ht⟩ := h
  cases hrev : (natToChars n).reverse with
  | nil => exact natToChars_ne_nil n (List.reverse_eq_nil_iff.mp hrev)
  | cons c cs =>
    rw [hrev] at ht
    have hc : c ∈ natToChars n := List.mem_reverse.mp (by rw [hrev]; simp)
    have : (['[', 'v', ']'].reverse ++ t) = [']'].reverse ++ ((c :: cs) ++ a.reverse) := by
      simpa using ht
    simp only [List.reverse_cons, List.reverse_nil] at this
    have hv : 'v' = c := by
      have := congrArg (fun l => l.drop 1) this
      simp at this
      exact this.1
    have := natToChars_all_digit n c hc
    rw [← hv] at this
    exact absurd this (by decide)

theorem endsWithV_fpsFilter (fps i : Nat) : endsWithV (fpsFilter fps i) = false :=
  not_endsWithV_digit_close _ i

theorem endsWithV_cellScaleFilter (cw ch i : Nat) :
    endsWithV (cellScaleFilter cw ch i) = false :=
  not_endsWithV_digit_close _ i

theorem endsWithV_hstackFilter (ls : List (List Char)) (r : Nat) :
    endsWithV (hstackFilter ls r) = false :=
  not_endsWithV_digit_close _ r

theorem suffixV_of_suffix {a l : List Char} (h : (("[v]").data) <:+ a) (h2 : a <:+ l) :
    endsWithV l = true := by
  rw [endsWithV, List.isSuffixOf_iff_suffix]
  exact h.trans h2

theorem endsWithV_scaleSingleFilter (w h : Nat) :
    endsWithV (scaleSingleFilter w h) = true := by
  apply suffixV_of_suffix (a := (":(ow-iw)/2:(oh-ih)/2:color=black[v]").data)
  · decide
  · exact List.suffix_append _ _

theorem endsWithV_copyFilter (l : List Char) : endsWithV (copyFilter l) = true := by
  apply suffixV_of_suffix (a := ("copy[v]").data)
  · decide
  · exact List.suffix_append _ _

theorem endsWithV_vstackFilter (ls : List (List Char)) :
    endsWithV (vstackFilter ls) = true := by
  apply suffixV_of_suffix (a := ("[v]").data)
  · exact List.suffix_rfl
  · exact List.suffix_append _ _

theorem gridLoop_fst_no_v (n cols rows : Nat) :
    ∀ f ∈ (gridLoop n cols rows).1, endsWithV f = false := by
  induction rows with
  | zero => intro f hf; simp [gridLoop] at hf
  | succ rows ih =>
    intro f hf
    rw [gridLoop, List.range_succ, List.foldl_concat] at hf
    rcases hgr : gridRow n cols rows with _ | ⟨l, ls⟩
    · rw [hgr] at hf
      exact ih f hf
    · rcases ls with _ | ⟨l2, ls2⟩
      · rw [hgr] at hf
        exact ih f hf
      · rw [hgr] at hf
        simp only [List.mem_append, List.mem_singleton] at hf
        rcases hf with hf | hf
        · exact ih f hf
        · subst hf
          exact endsWithV_hstackFilter _ _

theorem endsWithV_gridFinal (labels : List (List Char)) :
    endsWithV (gridFinal labels) = true := by
  rcases labels with _ | ⟨l, _ | ⟨l2, ls2⟩⟩
  · exact endsWithV_vstackFilter _
  · exact endsWithV_copyFilter _
  · exact endsWithV_vstackFilter _

theorem buildFilters_eq_one (layout : Layout) (fps : Nat) :
    buildFilters 1 layout fps =
      (List.range 1).map (fpsFilter fps)
        ++ [scaleSingleFilter layout.width layout.height] := by
  rw [buildFilters]
  simp

theorem buildFilters_eq_grid {n : Nat} (layout : Layout) (fps : Nat) (h : ¬n = 1) :
    buildFilters n layout fps =
      (List.range n).map (fpsFilter fps)
        ++ (List.range n).map
          (cellScaleFilter (layout.width / ceilSqrt n)
            (layout.height / ceilDiv n (ceilSqrt n)))
        ++ (gridLoop n (ceilSqrt n) (ceilDiv n (ceilSqrt n))).1
        ++ [gridFinal (gridLoop n (ceilSqrt n) (ceilDiv n (ceilSqrt n))).2] := by
  rw [buildFilters]
  simp only [if_neg h]

theorem countP_endsWithV_buildFilters (n : Nat) (layout : Layout) (fps : Nat) :
    (buildFilters n layout fps).countP endsWithV = 1 := by
  have hfps : ((List.range n).map (fpsFilter fps)).countP endsWithV = 0 := by
    rw [List.countP_eq_zero]
    intro a ha
    rw [List.mem_map] at ha
    obtain ⟨i, _, hi⟩ := ha
    rw [← hi, endsWithV_fpsFilter]
    simp
  by_cases h : n = 1
  · subst h
    rw [buildFilters_eq_one, List.countP_append, hfps]
    simp [List.countP_cons, endsWithV_scaleSingleFilter]
  · rw [buildFilters_eq_grid layout fps h]
    simp only [List.countP_append, hfps]
    have hscale : ((List.range n).map
        (cellScaleFilter (layout.width / ceilSqrt n)
          (layout.height / ceilDiv n (ceilSqrt n)))).countP endsWithV = 0 := by
      rw [List.countP_eq_zero]
      intro a ha
      rw [List.mem_map] at ha
      obtain ⟨i, _, hi⟩ := ha
      rw [← hi, endsWithV_cellScaleFilter]
      simp
    have hgrid : ((gridLoop n (ceilSqrt n) (ceilDiv n (ceilSqrt n))).1).countP
        endsWithV = 0 := by
      rw [List.countP_eq_zero]
      intro a ha
      rw [gridLoop_fst_no_v _ _ _ a ha]
      simp
    rw [hscale, hgrid]
    simp [List.countP_cons, endsWithV_gridFinal]

theorem suffix_joinWith_concat (sep : Char) (xs : List (List Char)) (x : List Char) :
    x <:+ joinWith sep (xs ++ [x]) := by
  induction xs with
  | nil => exact List.suffix_rfl
  | cons h t ih =>
    rcases t with _ | ⟨h2, t2⟩
    · show x <:+ h ++ sep :: joinWith sep [x]
      have : h ++ sep :: joinWith sep [x] = (h ++ [sep]) ++ joinWith sep [x] := by simp
      rw [this]
      exact List.suffix_append _ _
    · show x <:+ h ++ sep :: joinWith sep ((h2 :: t2) ++ [x])
      have heq : h ++ sep :: joinWith sep ((h2 :: t2) ++ [x])
          = (h ++ [sep]) ++ joinWith sep ((h2 :: t2) ++ [x]) := by simp
      rw [heq]
      exact ih.trans (List.suffix_append _ _)

theorem buildFilters_concat (n : Nat) (layout : Layout) (fps : Nat) :
    ∃ ys lastF, buildFilters n layout fps = ys ++ [lastF] ∧ endsWithV lastF = true := by
  by_cases h : n = 1
  · subst h
    exact ⟨_, _, buildFilters_eq_one layout fps, endsWithV_scaleSingleFilter _ _⟩
  · exact ⟨_, _, buildFilters_eq_grid layout fps h, endsWithV_gridFinal _⟩

theorem endsWithV_buildFilterComplex (n a : Nat) (layout : Layout) (fps : Nat) :
    endsWithV (buildFilterComplex n a layout fps) = true := by
  obtain ⟨ys, lastF, heq, hlast⟩ := buildFilters_concat n layout fps
  rw [buildFilterComplex, heq]
  have h1 : (("[v]").data) <:+ lastF := by
    rw [endsWithV, List.isSuffixOf_iff_suffix] at hlast
    exact hlast
  exact suffixV_of_suffix h1 (suffix_joinWith_concat ';' ys lastF)

/-! ## The grid loop realises the spec's grid geometry -/

theorem ceilSqrt_spec (n : Nat) :
    n ≤ ceilSqrt n * ceilSqrt n ∧ ∀ k, n ≤ k * k → ceilSqrt n ≤ k := by
  rw [ceilSqrt]
  split
  · next h =>
    constructor
    · omega
    · intro k hk
      calc Nat.sqrt n ≤ Nat.sqrt (k * k) := Nat.sqrt_le_sqrt hk
        _ = k := Nat.sqrt_eq k
  · next h =>
    constructor
    · have := Nat.lt_succ_sqrt n
      simp only [Nat.succ_eq_add_one] at this
      omega
    · intro k hk
      by_contra hlt
      push_neg at hlt
      have hks : k ≤ Nat.sqrt n := by omega
      have h1 : k * k ≤ Nat.sqrt n * Nat.sqrt n := Nat.mul_le_mul hks hks
      have h2 := Nat.sqrt_le n
      omega

theorem ceilDiv_spec (a b : Nat) (hb : 1 ≤ b) :
    a ≤ b * ceilDiv a b ∧ ∀ k, a ≤ b * k → ceilDiv a b ≤ k := by
  rw [ceilDiv]
  constructor
  · have h := Nat.div_add_mod (a + b - 1) b
    have hr := Nat.mod_lt (a + b - 1) (y := b) (by omega)
    omega
  · intro k hk
    by_contra hq
    push_neg at hq
    have h2 : (k + 1) * b ≤ a + b - 1 := (Nat.le_div_iff_mul_le (by omega)).mp hq
    have h3 : (k + 1) * b = b * k + b := by ring
    omega

theorem takeWhile_lt_range' (n : Nat) : ∀ cols s : Nat,
    (List.range' s cols).takeWhile (fun idx => idx < n)
      = List.range' s (min cols (n - s)) := by
  intro cols
  induction cols with
  | zero => intro s; simp
  | succ c ih =>
    intro s
    rw [List.range'_succ, List.takeWhile_cons]
    by_cases hs : s < n
    · rw [if_pos (by simp [hs]), ih (s + 1)]
      have hmin : min (c + 1) (n - s) = min c (n - (s + 1)) + 1 := by omega
      rw [hmin, List.range'_succ]
    · have h0 : min (c + 1) (n - s) = 0 := by omega
      simp [hs, h0]

theorem gridRow_eq (n cols r : Nat) :
    gridRow n cols r = (List.range' (r * cols) (specRowLen n cols r)).map vLabel := by
  rw [gridRow, specRowLen]
  have h1 : (List.range cols).map (fun col => r * cols + col)
      = List.range' (r * cols) cols := by
    rw [List.range_eq_range', List.map_add_range']
    simp
  rw [h1, takeWhile_lt_range']

theorem gridLoop_succ (n cols rows : Nat) :
    gridLoop n cols (rows + 1) =
      match gridRow n cols rows with
      | [] => gridLoop n cols rows
      | [l] => ((gridLoop n cols rows).1, (gridLoop n cols rows).2 ++ [l])
      | ls => ((gridLoop n cols rows).1 ++ [hstackFilter ls rows],
               (gridLoop n cols rows).2 ++ [rLabel rows]) := by
  unfold gridLoop
  rw [List.range_succ, List.foldl_concat]

theorem gridLoop_spec (n cols : Nat) (hcols : 1 ≤ cols) : ∀ rows : Nat,
    (∀ r, r < rows → r * cols < n) →
    gridLoop n cols rows = (specStackFilters n cols rows, specRowLabels n cols rows) := by
  intro rows
  induction rows with
  | zero => intro _; rfl
  | succ rows ih =>
    intro hr
    have hlt : rows * cols < n := hr rows (Nat.lt_succ_self rows)
    have hlen : 1 ≤ specRowLen n cols rows := by
      rw [specRowLen]; omega
    have hspec1 : specStackFilters n cols (rows + 1)
        = specStackFilters n cols rows
          ++ (if 2 ≤ specRowLen n cols rows then
                [hstackFilter ((List.range' (rows * cols)
                  (specRowLen n cols rows)).map vLabel) rows]
              else []) := by
      rw [specStackFilters, specStackFilters, List.range_succ, List.filterMap_append]
      by_cases h2 : 2 ≤ specRowLen n cols rows
      · simp [List.filterMap_cons, h2]
      · simp [List.filterMap_cons, h2]
    have hspec2 : specRowLabels n cols (rows + 1)
        = specRowLabels n cols rows
          ++ [if specRowLen n cols rows = 1 then vLabel (rows * cols) else rLabel rows] := by
      rw [specRowLabels, specRowLabels, List.range_succ, List.map_append]
      rfl
    rw [gridLoop_succ, ih (fun r hrr => hr r (Nat.lt_succ_of_lt hrr)), hspec1, hspec2]
    rcases hL : specRowLen n cols rows with _ | ⟨_ | L2⟩
    · omega
    · have hgr : gridRow n cols rows = [vLabel (rows * cols)] := by
        rw [gridRow_eq, hL, List.range'_one]
        rfl
      rw [hgr]
      simp [hL]
    · have hgr : gridRow n cols rows
          = vLabel (rows * cols) :: vLabel (rows * cols + 1)
            :: (List.range' (rows * cols + 2) L2).map vLabel := by
        rw [gridRow_eq, hL, List.range'_succ, List.range'_succ]
        rfl
      rw [hgr]
      have h2 : 2 ≤ specRowLen n cols rows := by omega
      simp only [hL, h2, if_true]
      have hne : ¬ specRowLen n cols rows = 1 := by omega
      rw [if_neg (by omega : ¬ (L2 + 1 + 1) = 1),
        if_pos (by omega : 2 ≤ L2 + 1 + 1)]
      have harg : List.map vLabel (List.range' (rows * cols) (L2 + 1 + 1))
          = vLabel (rows * cols) :: vLabel (rows * cols + 1)
            :: List.map vLabel (List.range' (rows * cols + 2) L2) := by
        rw [List.range'_succ, List.range'_succ]
        rfl
      rw [harg]

theorem ceilSqrt_pos {n : Nat} (hn : 1 ≤ n) : 1 ≤ ceilSqrt n := by
  have h := (ceilSqrt_spec n).1
  rcases Nat.eq_zero_or_pos (ceilSqrt n) with h0 | h1
  · rw [h0] at h
    omega
  · exact h1

theorem rows_cover {n : Nat} (hn : 1 ≤ n) :
    ∀ r, r < ceilDiv n (ceilSqrt n) → r * ceilSqrt n < n := by
  intro r hr
  have hcols := ceilSqrt_pos hn
  by_contra hge
  push_neg at hge
  have hle : n ≤ ceilSqrt n * r := by
    calc n ≤ r * ceilSqrt n := hge
      _ = ceilSqrt n * r := Nat.mul_comm _ _
  have := (ceilDiv_spec n (ceilSqrt n) hcols).2 r hle
  omega

/-! ## Claims -/

/-- C2: for every participant count `N ≥ 1`, canvas size and target
frame rate, the layout engine's filter-graph construction is a pure
function of those inputs (here additionally: it ignores the audio-input
count, so two calls agreeing on the remaining arguments are
byte-identical), and the returned expression defines exactly one
terminal combined-video label `[v]`: exactly one generated filter has
output label `[v]`, and the joined expression ends with it. -/
theorem claim2_filter_complex_pure_single_v (n a a' : Nat) (layout : Layout)
    (fps : Nat) (hn : 1 ≤ n) :
    buildFilterComplex n a layout fps = buildFilterComplex n a' layout fps
    ∧ (buildFilters n layout fps).countP endsWithV = 1
    ∧ endsWithV (buildFilterComplex n a layout fps) = true :=
  ⟨rfl, countP_endsWithV_buildFilters n layout fps,
    endsWithV_buildFilterComplex n a layout fps⟩

theorem claim2_witness :
    1 ≤ 3
    ∧ (buildFilterComplex 3 2 ⟨1280, 720⟩ 60 = buildFilterComplex 3 7 ⟨1280, 720⟩ 60
      ∧ (buildFilters 3 ⟨1280, 720⟩ 60).countP endsWithV = 1
      ∧ endsWithV (buildFilterComplex 3 2 ⟨1280, 720⟩ 60) = true) :=
  ⟨by decide, claim2_filter_complex_pure_single_v 3 2 7 ⟨1280, 720⟩ 60 (by decide)⟩

/-- C3: for `N > 1` the layout engine first normalises every input's
frame rate, computes `columns = ceil(sqrt N)` and `rows = ceil(N /
columns)` (witnessed by the ceiling characterisations), cell sizes by
flooring the canvas, scales/pads every input to its cell, horizontally
stacks each multi-input row (a single-input row keeps that input's
label), and finally stacks the row labels vertically, passing a single
row through (as a `copy`) instead of stacking. -/
theorem claim3_grid_algorithm (n : Nat) (layout : Layout) (fps : Nat) (hn : 2 ≤ n) :
    (n ≤ ceilSqrt n * ceilSqrt n ∧ ∀ k, n ≤ k * k → ceilSqrt n ≤ k)
    ∧ (n ≤ ceilSqrt n * ceilDiv n (ceilSqrt n)
        ∧ ∀ k, n ≤ ceilSqrt n * k → ceilDiv n (ceilSqrt n) ≤ k)
    ∧ buildFilters n layout fps =
        (List.range n).map (fpsFilter fps)
        ++ (List.range n).map (cellScaleFilter (layout.width / ceilSqrt n)
              (layout.height / ceilDiv n (ceilSqrt n)))
        ++ specStackFilters n (ceilSqrt n) (ceilDiv n (ceilSqrt n))
        ++ [gridFinal (specRowLabels n (ceilSqrt n) (ceilDiv n (ceilSqrt n)))] := by
  have hcols := ceilSqrt_pos (by omega : 1 ≤ n)
  refine ⟨ceilSqrt_spec n, ceilDiv_spec n (ceilSqrt n) hcols, ?_⟩
  rw [buildFilters_eq_grid layout fps (by omega),
    gridLoop_spec n (ceilSqrt n) hcols (ceilDiv n (ceilSqrt n))
      (rows_cover (by omega))]

theorem claim3_witness :
    2 ≤ 5
    ∧ buildFilters 5 ⟨1280, 720⟩ 60 =
        (List.range 5).map (fpsFilter 60)
        ++ (List.range 5).map (cellScaleFilter (1280 / ceilSqrt 5)
              (720 / ceilDiv 5 (ceilSqrt 5)))
        ++ specStackFilters 5 (ceilSqrt 5) (ceilDiv 5 (ceilSqrt 5))
        ++ [gridFinal (specRowLabels 5 (ceilSqrt 5) (ceilDiv 5 (ceilSqrt 5)))] :=
  ⟨by decide, (claim3_grid_algorithm 5 ⟨1280, 720⟩ 60 (by decide)).2.2⟩

/-! ## Readiness-gate lemmas -/

theorem checkAllReady_false {fs : String → Option (List Char)} {paths : List String}
    {p : String} (hp : p ∈ paths) (hbad : sdpFileReady (fs p) = false) :
    checkAllReady fs paths = false := by
  rw [checkAllReady]
  by_contra h
  rw [Bool.not_eq_false, List.all_eq_true] at h
  have := h p hp
  rw [hbad] at this
  exact absurd this (by simp)

theorem waitRun_never_ready (fsAt : Nat → String → Option (List Char))
    (paths : List String) (p : String) (hp : p ∈ paths)
    (hbad : ∀ t, sdpFileReady (fsAt t p) = false) (T : Nat) :
    ∀ fuel k j, waitForSdpReadyRun fsAt paths T fuel k ≠ some (.ready j) := by
  intro fuel
  induction fuel with
  | zero => intro k j h; exact absurd h (by rw [waitForSdpReadyRun]; simp)
  | succ fuel ih =>
    intro k j h
    rw [waitForSdpReadyRun, checkAllReady_false hp (hbad _)] at h
    simp only [Bool.false_eq_true, if_false] at h
    by_cases ht : pollIntervalMs * k > T
    · rw [if_pos ht] at h
      exact absurd h (by simp)
    · rw [if_neg ht] at h
      exact ih (k + 1) j h

theorem waitRun_rejects (fsAt : Nat → String → Option (List Char))
    (paths : List String) (p : String) (hp : p ∈ paths)
    (hbad : ∀ t, sdpFileReady (fsAt t p) = false) :
    ∀ fuel k, k ≤ 67 → 68 - k ≤ fuel →
      waitForSdpReadyRun fsAt paths combinedSdpTimeoutMs fuel k = some (.failed 67) := by
  intro fuel
  induction fuel with
  | zero => intro k hk hf; omega
  | succ fuel ih =>
    intro k hk hf
    rw [waitForSdpReadyRun, checkAllReady_false hp (hbad _)]
    simp only [Bool.false_eq_true, if_false]
    have hP : pollIntervalMs = 150 := rfl
    have hT : combinedSdpTimeoutMs = 10000 := rfl
    by_cases hk67 : k = 67
    · subst hk67
      rw [if_pos (by rw [hP, hT]; omega)]
    · rw [if_neg (by rw [hP, hT]; omega)]
      exact ih (k + 1) (by omega) (by omega)

/-! ## Port, retry and gate claims -/

/-- C10: ports are allocated as `basePort = 20000 + 4*inputIndex`, video
RTP/RTCP at `basePort`/`basePort+1`, audio RTP/RTCP at
`basePort+2`/`basePort+3`; the four ports of one input are pairwise
distinct and disjoint from the four ports of every other input of the
same rebuild. -/
theorem claim10_sequential_ports (i j : Nat) :
    combinedBasePort i = 20000 + 4 * i
    ∧ combinedVideoRtpPort i = combinedBasePort i
    ∧ combinedVideoRtcpPort i = combinedBasePort i + 1
    ∧ combinedAudioRtpPort i = combinedBasePort i + 2
    ∧ combinedAudioRtcpPort i = combinedBasePort i + 3
    ∧ (combinedPortsOf i).Nodup
    ∧ (i ≠ j → ∀ q ∈ combinedPortsOf i, q ∉ combinedPortsOf j) := by
  refine ⟨by unfold combinedBasePort; omega, rfl, rfl, rfl, rfl, ?_, ?_⟩
  · simp [combinedPortsOf, combinedVideoRtpPort, combinedVideoRtcpPort,
      combinedAudioRtpPort, combinedAudioRtcpPort, combinedBasePort]
  · intro hij q hq hq'
    rw [combinedPortsOf] at hq hq'
    unfold combinedVideoRtpPort combinedVideoRtcpPort combinedAudioRtpPort
      combinedAudioRtcpPort combinedBasePort at hq hq'
    simp only [List.mem_cons, List.mem_singleton, List.not_mem_nil, or_false] at hq hq'
    omega

theorem claim10_witness :
    (combinedPortsOf 0).Nodup
    ∧ ¬(0 = 1)
    ∧ combinedVideoRtpPort 0 ∉ combinedPortsOf 1 :=
  ⟨(claim10_sequential_ports 0 1).2.2.2.2.2.1, by decide,
    (claim10_sequential_ports 0 1).2.2.2.2.2.2 (by decide)
      (combinedVideoRtpPort 0) (by rw [combinedPortsOf]; simp)⟩

/-- C4 as stated is false: the catch branch at combinedHLSBridge.ts:377
schedules a retry after every readiness timeout, with no retry counter,
so with a persistently failing gate a third attempt (and more) is made
— the system does not give up after the retried rebuild fails. -/
theorem claim4_counterexample :
    combinedRebuildAttempts (fun _ => false) 0 3 = 3
    ∧ ¬(combinedRebuildAttempts (fun _ => false) 0 3 ≤ 2) := by
  constructor
  · rfl
  · decide

/-- C4 (amended): when the readiness gate times out during a composite
rebuild, that rebuild is abandoned and automatically retried after a
fixed 2000 ms backoff; the retry is rescheduled after every subsequent
timeout as well — there is no retry cap, so while the gate keeps failing
the attempt count equals the whole available fuel. -/
theorem claim4_retry_unbounded :
    combinedRetryDelayMs = 2000
    ∧ ∀ gateOk : Nat → Bool, (∀ i, gateOk i = false) →
        ∀ i fuel, combinedRebuildAttempts gateOk i fuel = fuel := by
  refine ⟨rfl, ?_⟩
  intro gateOk hfail i fuel
  induction fuel generalizing i with
  | zero => rfl
  | succ fuel ih =>
    rw [combinedRebuildAttempts, hfail i]
    simp only [Bool.false_eq_true, if_false]
    rw [ih (i + 1)]
    omega

theorem claim4_witness :
    combinedRetryDelayMs = 2000
    ∧ combinedRebuildAttempts (fun _ => false) 0 4 = 4 :=
  ⟨claim4_retry_unbounded.1,
    claim4_retry_unbounded.2 (fun _ => false) (fun _ => rfl) 0 4⟩

/-- C5: with a descriptor path whose file never exists or never carries
a parseable non-zero size, the gate polls at the fixed sub-second
interval of 150 ms, never resolves, and rejects at poll 67 — the first
poll whose elapsed time `150 * 67 = 10050` ms exceeds the 10000 ms
timeout used at the composite call site. -/
theorem claim5_gate_rejects (fsAt : Nat → String → Option (List Char))
    (paths : List String) (p : String) (hp : p ∈ paths)
    (hbad : ∀ t, sdpFileReady (fsAt t p) = false) :
    pollIntervalMs < 1000
    ∧ (∀ fuel k j,
        waitForSdpReadyRun fsAt paths combinedSdpTimeoutMs fuel k ≠ some (.ready j))
    ∧ (∀ fuel, 68 ≤ fuel →
        waitForSdpReadyRun fsAt paths combinedSdpTimeoutMs fuel 0 = some (.failed 67))
    ∧ pollIntervalMs * 67 > combinedSdpTimeoutMs
    ∧ ¬(pollIntervalMs * 66 > combinedSdpTimeoutMs) := by
  refine ⟨by decide, waitRun_never_ready fsAt paths p hp hbad _, ?_, by decide, by decide⟩
  intro fuel hfuel
  exact waitRun_rejects fsAt paths p hp hbad fuel 0 (by omega) (by omega)

theorem claim5_witness :
    ("a.sdp" ∈ ["a.sdp", "b.sdp"])
    ∧ waitForSdpReadyRun (fun _ _ => none) ["a.sdp", "b.sdp"]
        combinedSdpTimeoutMs 68 0 = some (.failed 67) :=
  ⟨by simp,
    (claim5_gate_rejects (fun _ _ => none) ["a.sdp", "b.sdp"] "a.sdp" (by simp)
      (fun _ => rfl)).2.2.1 68 (by omega)⟩

/-! ## Trace lemmas for the combined-session rebuild -/

theorem allocOneInput_not_teardown (i : Nat) (s : SessionInfo) :
    ∀ e ∈ allocOneInput i s, e.isTeardown = false := by
  intro e he
  rw [allocOneInput] at he
  by_cases ha : s.hasAudio
  · simp [ha] at he
    rcases he with rfl | rfl | rfl | rfl | rfl | rfl | rfl | rfl <;> rfl
  · simp [ha] at he
    rcases he with rfl | rfl | rfl | rfl <;> rfl

theorem postTeardownTrace_not_teardown (env : CombinedEnv) :
    ∀ e ∈ postTeardownTrace env, e.isTeardown = false := by
  intro e he
  rw [postTeardownTrace, List.mem_append] at he
  rcases he with he | he
  · simp at he
    subst he
    rfl
  · split at he
    · simp at he
    · rw [List.mem_append] at he
      rcases he with he | he
      · rw [allocTrace, List.mem_flatMap] at he
        obtain ⟨p, _, hp2⟩ := he
        exact allocOneInput_not_teardown p.1 p.2 e hp2
      · split at he
        · simp at he
        · split at he
          · simp at he
            rcases he with rfl | rfl | rfl <;> rfl
          · simp at he
            subst he
            rfl

theorem teardownTrace_not_alloc (env : CombinedEnv) :
    ∀ e ∈ teardownTrace env, e.isAlloc = false := by
  intro e he
  rw [teardownTrace, List.mem_append] at he
  rcases he with he | he
  · split at he
    · simp at he
      subst he
      rfl
    · simp at he
  · split at he
    · simp at he
      rcases he with rfl | rfl | rfl | rfl <;> rfl
    · simp at he

theorem teardownTrace_full {env : CombinedEnv} (hp : env.hasProcess = true)
    (hr : env.hasResources = true) :
    teardownTrace env
      = [Effect.killProcess, Effect.closeConsumers, Effect.closeTransports,
         Effect.clearPlaylistTimer, Effect.deleteResourcesKey] := by
  simp [teardownTrace, hp, hr]

/-- C1: re-acquiring the combined session key while a session is live
(`hasProcess`, `hasResources`) first fully releases the old session and
only then allocates: the trace splits into a prefix free of allocation
effects and a suffix free of teardown effects, and whenever any
allocation effect occurs at all, the prefix already contains the
process kill, the consumer closes, the transport closes and the timer
clear.  This holds on every exit path, including exception truncations. -/
theorem claim1_teardown_before_alloc (env : CombinedEnv) (failAt : Option Nat)
    (hp : env.hasProcess = true) (hr : env.hasResources = true) :
    ∃ pre post, (setupCombinedHlsStream false env failAt).1 = pre ++ post
      ∧ (∀ e ∈ pre, e.isAlloc = false)
      ∧ (∀ e ∈ post, e.isTeardown = false)
      ∧ ((∃ e ∈ post, e.isAlloc = true) →
          Effect.killProcess ∈ pre ∧ Effect.closeConsumers ∈ pre
            ∧ Effect.closeTransports ∈ pre ∧ Effect.clearPlaylistTimer ∈ pre) := by
  have hpre_noalloc : ∀ k, ∀ e ∈ Effect.setGuard :: (teardownTrace env).take k,
      e.isAlloc = false := by
    intro k e he
    rcases List.mem_cons.mp he with rfl | he
    · rfl
    · exact teardownTrace_not_alloc env e (List.take_subset k _ he)
  have hpost_noteardown : ∀ k,
      ∀ e ∈ (postTeardownTrace env).take k ++ [Effect.clearGuard],
        e.isTeardown = false := by
    intro k e he
    rcases List.mem_append.mp he with he | he
    · exact postTeardownTrace_not_teardown env e (List.take_subset k _ he)
    · simp at he
      subst he
      rfl
  rcases failAt with _ | k
  · refine ⟨Effect.setGuard :: teardownTrace env,
      postTeardownTrace env ++ [Effect.clearGuard], ?_, ?_, ?_, ?_⟩
    · simp [setupCombinedHlsStream, bodyTrace]
    · intro e he
      rcases List.mem_cons.mp he with rfl | he
      · rfl
      · exact teardownTrace_not_alloc env e he
    · intro e he
      rcases List.mem_append.mp he with he | he
      · exact postTeardownTrace_not_teardown env e he
      · simp at he
        subst he
        rfl
    · intro _
      rw [teardownTrace_full hp hr]
      simp
  · refine ⟨Effect.setGuard :: (teardownTrace env).take k,
      (postTeardownTrace env).take (k - (teardownTrace env).length)
        ++ [Effect.clearGuard], ?_, hpre_noalloc k, hpost_noteardown _, ?_⟩
    · simp only [setupCombinedHlsStream, bodyTrace, if_neg Bool.false_ne_true,
        List.take_append_eq_append_take]
      simp
    · rintro ⟨e0, he0, hal⟩
      rcases List.mem_append.mp he0 with he0 | he0
      · by_cases hk : (teardownTrace env).length ≤ k
        · rw [List.take_of_length_le hk, teardownTrace_full hp hr]
          simp
        · have h0 : k - (teardownTrace env).length = 0 := by omega
          rw [h0] at he0
          simp at he0
      · simp at he0
        subst he0
        exact absurd hal (by simp [Effect.isAlloc])

/-- C6: a rebuild request arriving while `isUpdatingCombinedStream` is
set returns immediately with an empty effect trace (dropped, not
queued) and leaves the guard to the in-flight run; otherwise the guard
is set as the very first effect (before the first suspension point,
which can only occur inside the body) and cleared as the very last
effect, with the final guard value `false`, on every exit path
including exception truncations. -/
theorem claim6_single_flight_guard (env : CombinedEnv) (failAt : Option Nat) :
    setupCombinedHlsStream true env failAt = ([], true)
    ∧ (setupCombinedHlsStream false env failAt).1.head? = some Effect.setGuard
    ∧ (setupCombinedHlsStream false env failAt).1.getLast? = some Effect.clearGuard
    ∧ (setupCombinedHlsStream false env failAt).2 = false := by
  refine ⟨rfl, ?_, ?_, rfl⟩
  · rcases failAt with _ | k <;> rfl
  · rcases failAt with _ | k
    · exact List.getLast?_concat _
    · exact List.getLast?_concat _

theorem claim1_witness :
    ((setupCombinedHlsStream false sampleEnv none).1.get ⟨7, by decide⟩).isAlloc = true
    ∧ (∃ pre post, (setupCombinedHlsStream false sampleEnv none).1 = pre ++ post
        ∧ (∀ e ∈ pre, e.isAlloc = false)
        ∧ (∀ e ∈ post, e.isTeardown = false)
        ∧ ((∃ e ∈ post, e.isAlloc = true) →
            Effect.killProcess ∈ pre ∧ Effect.closeConsumers ∈ pre
              ∧ Effect.closeTransports ∈ pre ∧ Effect.clearPlaylistTimer ∈ pre)) :=
  ⟨by decide, claim1_teardown_before_alloc sampleEnv none rfl rfl⟩

/-! ## Line-splitting lemmas -/

theorem splitOnChar_cons_sep (sep : Char) (b : List Char) :
    splitOnChar sep (sep :: b) = [] :: splitOnChar sep b := by
  rw [splitOnChar]
  simp

theorem splitOnChar_cons_ne {sep c : Char} (hc : ¬c = sep) (b : List Char) :
    splitOnChar sep (c :: b) =
      match splitOnChar sep b with
      | [] => [[c]]
      | h :: t => (c :: h) :: t := by
  rw [splitOnChar]
  simp [hc]

theorem splitOnChar_append_line {sep : Char} :
    ∀ {a : List Char}, (∀ c ∈ a, c ≠ sep) → ∀ b : List Char,
      splitOnChar sep (a ++ sep :: b) = a :: splitOnChar sep b := by
  intro a
  induction a with
  | nil => intro _ b; exact splitOnChar_cons_sep sep b
  | cons c cs ih =>
    intro h b
    rw [List.cons_append, splitOnChar_cons_ne (h c (by simp)),
      ih (fun x hx => h x (by simp [hx])) b]

theorem splitOnChar_no_sep {sep : Char} {l : List Char} (h : ∀ c ∈ l, c ≠ sep) :
    splitOnChar sep l = [l] := by
  induction l with
  | nil => rfl
  | cons c cs ih =>
    rw [splitOnChar_cons_ne (h c (by simp)),
      ih (fun x hx => h x (by simp [hx]))]

theorem natToChars_ne {d : Char} (hd : d.isDigit = false) (n : Nat) :
    ∀ c ∈ natToChars n, c ≠ d :=
  fun c hc => digit_ne_of_not_digit (natToChars_all_digit n c hc) hd

theorem noSep_append {sep : Char} {a b : List Char} (ha : ∀ c ∈ a, c ≠ sep)
    (hb : ∀ c ∈ b, c ≠ sep) : ∀ c ∈ a ++ b, c ≠ sep := by
  intro c hc
  rcases List.mem_append.mp hc with h | h
  · exact ha c h
  · exact hb c h

/-! ## Descriptor lines -/

theorem createSdp_video_shape (codec : RtpCodec) (pt rtpPort rtcpPort : Nat)
    (hv : mimeIsVideo codec = true) (ha : mimeIsAudio codec = false) :
    createSdpFile codec pt rtpPort rtcpPort
      = ("v=0\r").data ++ '\n'
        :: (("o=- 0 0 IN IP4 127.0.0.1\r").data ++ '\n'
        :: (("s=mediasoup\r").data ++ '\n'
        :: (("c=IN IP4 127.0.0.1\r").data ++ '\n'
        :: (("t=0 0\r").data ++ '\n'
        :: ((("m=video ").data ++ natToChars rtpPort ++ (" RTP/AVP ").data
              ++ natToChars pt ++ ['\r']) ++ '\n'
        :: ((("a=rtpmap:").data ++ natToChars pt ++ [' '] ++ sdpCodecName codec
              ++ ['/'] ++ natToChars codec.clockRate ++ ['\r']) ++ '\n'
        :: (sdpFmtp codec pt ++ ("a=sendonly").data ++ crlf
              ++ ("a=rtcp:").data ++ natToChars rtcpPort ++ crlf))))))) := by
  have hhdr : sdpSessionHeader
      = ("v=0\r").data ++ '\n'
        :: (("o=- 0 0 IN IP4 127.0.0.1\r").data ++ '\n'
        :: (("s=mediasoup\r").data ++ '\n'
        :: (("c=IN IP4 127.0.0.1\r").data ++ '\n'
        :: (("t=0 0\r").data ++ ['\n'])))) := by decide
  rw [createSdpFile, sdpMLine]
  rw [ha, hv]
  simp only [Bool.false_eq_true, if_false, if_true, hhdr, crlf]
  simp [List.append_assoc]

theorem natToChars_pred_ne {d : Char} (hd : d.isDigit = false) (n : Nat) :
    ∀ c ∈ natToChars n, (decide (¬c = d)) = true :=
  fun c hc => decide_eq_true (natToChars_ne hd n c hc)

theorem createSdp_video_lines (codec : RtpCodec) (pt rtpPort rtcpPort : Nat)
    (hv : mimeIsVideo codec = true) (ha : mimeIsAudio codec = false)
    (hname : ∀ c ∈ sdpCodecName codec, c ≠ '\n') :
    splitOnChar '\n' (createSdpFile codec pt rtpPort rtcpPort)
      = ("v=0\r").data :: ("o=- 0 0 IN IP4 127.0.0.1\r").data
        :: ("s=mediasoup\r").data :: ("c=IN IP4 127.0.0.1\r").data
        :: ("t=0 0\r").data
        :: (("m=video ").data ++ natToChars rtpPort ++ (" RTP/AVP ").data
              ++ natToChars pt ++ ['\r'])
        :: (("a=rtpmap:").data ++ natToChars pt ++ [' '] ++ sdpCodecName codec
              ++ ['/'] ++ natToChars codec.clockRate ++ ['\r'])
        :: splitOnChar '\n' (sdpFmtp codec pt ++ ("a=sendonly").data ++ crlf
              ++ ("a=rtcp:").data ++ natToChars rtcpPort ++ crlf) := by
  have hm : ∀ c ∈ ("m=video ").data ++ natToChars rtpPort ++ (" RTP/AVP ").data
      ++ natToChars pt ++ ['\r'], c ≠ '\n' :=
    noSep_append (noSep_append (noSep_append (noSep_append (by decide)
      (natToChars_ne (by decide) rtpPort)) (by decide))
      (natToChars_ne (by decide) pt)) (by decide)
  have hr : ∀ c ∈ ("a=rtpmap:").data ++ natToChars pt ++ [' '] ++ sdpCodecName codec
      ++ ['/'] ++ natToChars codec.clockRate ++ ['\r'], c ≠ '\n' :=
    noSep_append (noSep_append (noSep_append (noSep_append (noSep_append
      (noSep_append (by decide) (natToChars_ne (by decide) pt)) (by decide))
      hname) (by decide)) (natToChars_ne (by decide) codec.clockRate)) (by decide)
  rw [createSdp_video_shape codec pt rtpPort rtcpPort hv ha,
    splitOnChar_append_line (by decide) _, splitOnChar_append_line (by decide) _,
    splitOnChar_append_line (by decide) _, splitOnChar_append_line (by decide) _,
    splitOnChar_append_line (by decide) _, splitOnChar_append_line hm _,
    splitOnChar_append_line hr _]

theorem parse_payloadType_roundtrip (codec : RtpCodec) (pt rtpPort rtcpPort : Nat)
    (hv : mimeIsVideo codec = true) (ha : mimeIsAudio codec = false)
    (hname : ∀ c ∈ sdpCodecName codec, c ≠ '\n') :
    parseSdpVideoPayloadType (createSdpFile codec pt rtpPort rtcpPort) = some pt := by
  rw [parseSdpVideoPayloadType,
    createSdp_video_lines codec pt rtpPort rtcpPort hv ha hname]
  have hpat : ("m=video ").data
      = 'm' :: '=' :: 'v' :: 'i' :: 'd' :: 'e' :: 'o' :: [' '] := by decide
  have hp6 : (("m=video ").data).isPrefixOf (("m=video ").data
      ++ natToChars rtpPort ++ (" RTP/AVP ").data ++ natToChars pt ++ ['\r']) = true := by
    rw [List.isPrefixOf_iff_prefix]
    exact (((List.prefix_append _ _).trans (List.prefix_append _ _)).trans
      (List.prefix_append _ _)).trans (List.prefix_append _ _)
  have h1 : ((("m=video ").data).isPrefixOf (("v=0\r").data)) = false := by decide
  have h2 : ((("m=video ").data).isPrefixOf
      (("o=- 0 0 IN IP4 127.0.0.1\r").data)) = false := by decide
  have h3 : ((("m=video ").data).isPrefixOf (("s=mediasoup\r").data)) = false := by
    decide
  have h4 : ((("m=video ").data).isPrefixOf (("c=IN IP4 127.0.0.1\r").data)) = false := by
    decide
  have h5 : ((("m=video ").data).isPrefixOf (("t=0 0\r").data)) = false := by decide
  simp only [List.find?_cons, h1, h2, h3, h4, h5, hp6]
  have hm2 : ("m=video ").data ++ natToChars rtpPort ++ (" RTP/AVP ").data
      ++ natToChars pt ++ ['\r']
      = ("m=video").data ++ ' '
        :: (natToChars rtpPort ++ ' '
        :: (("RTP/AVP").data ++ ' ' :: (natToChars pt ++ ['\r']))) := by
    rw [show ("m=video ").data = ("m=video").data ++ [' '] by decide,
      show (" RTP/AVP ").data = ' ' :: ("RTP/AVP").data ++ [' '] by decide]
    simp [List.append_assoc]
  rw [hm2, splitOnChar_append_line (by decide) _,
    splitOnChar_append_line (natToChars_ne (by decide) rtpPort) _,
    splitOnChar_append_line (by decide) _,
    splitOnChar_no_sep (noSep_append (natToChars_ne (by decide) pt) (by decide))]
  exact readNat_digits_prefix pt (by decide)

theorem dropWhile_ne_self {d : Char} (l : List Char) :
    List.dropWhile (fun c => decide (¬c = d)) (d :: l) = d :: l := by
  rw [List.dropWhile_cons]
  simp

theorem parse_clockRate_roundtrip (codec : RtpCodec) (pt rtpPort rtcpPort : Nat)
    (hv : mimeIsVideo codec = true) (ha : mimeIsAudio codec = false)
    (hname : ∀ c ∈ sdpCodecName codec, c ≠ '\n')
    (hns : ∀ c ∈ sdpCodecName codec, c ≠ '/') :
    parseSdpClockRate (createSdpFile codec pt rtpPort rtcpPort)
      = some codec.clockRate := by
  rw [parseSdpClockRate,
    createSdp_video_lines codec pt rtpPort rtcpPort hv ha hname]
  have h1 : ((("a=rtpmap:").data).isPrefixOf (("v=0\r").data)) = false := by decide
  have h2 : ((("a=rtpmap:").data).isPrefixOf
      (("o=- 0 0 IN IP4 127.0.0.1\r").data)) = false := by decide
  have h3 : ((("a=rtpmap:").data).isPrefixOf (("s=mediasoup\r").data)) = false := by
    decide
  have h4 : ((("a=rtpmap:").data).isPrefixOf (("c=IN IP4 127.0.0.1\r").data)) = false := by
    decide
  have h5 : ((("a=rtpmap:").data).isPrefixOf (("t=0 0\r").data)) = false := by decide
  have h6 : ((("a=rtpmap:").data).isPrefixOf (("m=video ").data
      ++ natToChars rtpPort ++ (" RTP/AVP ").data ++ natToChars pt ++ ['\r'])) = false := by
    rw [show ("m=video ").data = 'm' :: ("=video ").data by decide,
      show ("a=rtpmap:").data = 'a' :: ("=rtpmap:").data by decide]
    simp [List.isPrefixOf]
  have h7 : ((("a=rtpmap:").data).isPrefixOf (("a=rtpmap:").data
      ++ natToChars pt ++ [' '] ++ sdpCodecName codec ++ ['/']
      ++ natToChars codec.clockRate ++ ['\r'])) = true := by
    rw [List.isPrefixOf_iff_prefix]
    exact (((((List.prefix_append _ _).trans (List.prefix_append _ _)).trans
      (List.prefix_append _ _)).trans (List.prefix_append _ _)).trans
      (List.prefix_append _ _))
  simp only [List.find?_cons, h1, h2, h3, h4, h5, h6, h7]
  have hsh : ("a=rtpmap:").data ++ natToChars pt ++ [' '] ++ sdpCodecName codec
      ++ ['/'] ++ natToChars codec.clockRate ++ ['\r']
      = ("a=rtpmap:").data ++ (natToChars pt ++ (' '
        :: (sdpCodecName codec ++ ('/' :: (natToChars codec.clockRate ++ ['\r']))))) := by
    simp [List.append_assoc]
  rw [hsh, show (9 : Nat) = (("a=rtpmap:").data).length by decide, List.drop_left]
  rw [dropWhile_append_all (natToChars_pred_ne (by decide) pt), dropWhile_ne_self]
  simp only [List.drop_succ_cons, List.drop_zero]
  rw [dropWhile_append_all (fun c hc => decide_eq_true (hns c hc)), dropWhile_ne_self]
  simp only [List.drop_succ_cons, List.drop_zero]
  exact readNat_digits_prefix codec.clockRate (by decide)

/-! ## Line-freeness of the synthesized pieces -/

theorem upChar_ne_nl {d : Char} (h : d ≠ '\n') : upChar d ≠ '\n' := by
  unfold upChar
  split <;> first | decide | assumption

theorem subtypeOf_subset (l : List Char) : ∀ c ∈ subtypeOf l, c ∈ l := by
  intro c hc
  rw [subtypeOf] at hc
  exact (List.dropWhile_sublist _).subset
    ((List.drop_subset _ _) ((List.takeWhile_sublist _).subset hc))

theorem upperStr_subtype_no_nl {l : List Char} (h : ∀ c ∈ l, c ≠ '\n') :
    ∀ c ∈ upperStr (subtypeOf l), c ≠ '\n' := by
  intro c hc
  rw [upperStr, List.mem_map] at hc
  obtain ⟨d, hd, rfl⟩ := hc
  exact upChar_ne_nl (h d (subtypeOf_subset l d hd))

theorem sdpCodecName_no_nl (codec : RtpCodec)
    (hmt : ∀ c ∈ codec.mimeType.data, c ≠ '\n') :
    ∀ c ∈ sdpCodecName codec, c ≠ '\n' := by
  intro c hc
  rw [sdpCodecName, sdpCodecNameOf] at hc
  split at hc
  · split at hc
    · exact (show ∀ x ∈ ("OPUS").data, x ≠ '\n' by decide) c hc
    · split at hc
      · exact (show ∀ x ∈ ("MPEG4-GENERIC").data, x ≠ '\n' by decide) c hc
      · exact upperStr_subtype_no_nl hmt c hc
  · split at hc
    · split at hc
      · exact (show ∀ x ∈ ("VP8").data, x ≠ '\n' by decide) c hc
      · split at hc
        · exact (show ∀ x ∈ ("VP9").data, x ≠ '\n' by decide) c hc
        · split at hc
          · exact (show ∀ x ∈ ("H264").data, x ≠ '\n' by decide) c hc
          · exact upperStr_subtype_no_nl hmt c hc
    · simp at hc

theorem sdpFmtpParams_no_nl (codec : RtpCodec)
    (hpm : ∀ v, codec.packetizationMode = some v → ∀ c ∈ v.data, c ≠ '\n')
    (hpl : ∀ v, codec.profileLevelId = some v → ∀ c ∈ v.data, c ≠ '\n') :
    ∀ x ∈ sdpFmtpParams codec, ∀ c ∈ x, c ≠ '\n' := by
  intro x hx
  rw [sdpFmtpParams] at hx
  split at hx
  · split at hx
    · simp at hx
    · split at hx
      · rcases hL : codec.profileLevelId with _ | v
        · rw [hL] at hx
          simp at hx
        · rw [hL] at hx
          simp at hx
          subst hx
          have hplv : ∀ c ∈ ("profile-level-id=").data ++ v.data, c ≠ '\n' :=
            noSep_append (show ∀ x ∈ ("profile-level-id=").data, x ≠ '\n' by decide)
              (hpl v hL)
          exact hplv
      · simp at hx
  · split at hx
    · split at hx
      · simp at hx
      · split at hx
        · simp at hx
        · split at hx
          · rw [List.mem_append] at hx
            rcases hx with hx | hx
            · rcases hM : codec.packetizationMode with _ | v
              · rw [hM] at hx
                simp at hx
              · rw [hM] at hx
                simp at hx
                subst hx
                have hpmv : ∀ c ∈ ("packetization-mode=").data ++ v.data, c ≠ '\n' :=
                  noSep_append
                    (show ∀ x ∈ ("packetization-mode=").data, x ≠ '\n' by decide)
                    (hpm v hM)
                exact hpmv
            · rcases hL : codec.profileLevelId with _ | v
              · rw [hL] at hx
                simp at hx
              · rw [hL] at hx
                simp at hx
                subst hx
                have hplv : ∀ c ∈ ("profile-level-id=").data ++ v.data, c ≠ '\n' :=
                  noSep_append
                    (show ∀ x ∈ ("profile-level-id=").data, x ≠ '\n' by decide)
                    (hpl v hL)
                exact hplv
          · simp at hx
    · simp at hx

theorem joinWith_no_nl {ps : List (List Char)}
    (h : ∀ x ∈ ps, ∀ c ∈ x, c ≠ '\n') : ∀ c ∈ joinWith ';' ps, c ≠ '\n' := by
  induction ps with
  | nil => intro c hc; simp [joinWith] at hc
  | cons p t ih =>
    rcases t with _ | ⟨p2, t2⟩
    · intro c hc
      exact h p (by simp) c hc
    · intro c hc
      have heq : joinWith ';' (p :: p2 :: t2) = p ++ ';' :: joinWith ';' (p2 :: t2) := rfl
      rw [heq] at hc
      rcases List.mem_append.mp hc with hc | hc
      · exact h p (by simp) c hc
      · rcases List.mem_cons.mp hc with rfl | hc
        · decide
        · exact ih (fun x hx => h x (by simp [hx])) c hc

theorem createSdp_audio_shape (codec : RtpCodec) (pt rtpPort rtcpPort : Nat)
    (ha : mimeIsAudio codec = true) :
    createSdpFile codec pt rtpPort rtcpPort
      = ("v=0\r").data ++ '\n'
        :: (("o=- 0 0 IN IP4 127.0.0.1\r").data ++ '\n'
        :: (("s=mediasoup\r").data ++ '\n'
        :: (("c=IN IP4 127.0.0.1\r").data ++ '\n'
        :: (("t=0 0\r").data ++ '\n'
        :: ((("m=audio ").data ++ natToChars rtpPort ++ (" RTP/AVP ").data
              ++ natToChars pt ++ ['\r']) ++ '\n'
        :: ((("a=rtpmap:").data ++ natToChars pt ++ [' '] ++ sdpCodecName codec
              ++ ['/'] ++ natToChars codec.clockRate ++ ['/']
              ++ natToChars (sdpChannels codec) ++ ['\r']) ++ '\n'
        :: (sdpFmtp codec pt ++ ("a=sendonly").data ++ crlf
              ++ ("a=rtcp:").data ++ natToChars rtcpPort ++ crlf))))))) := by
  have hhdr : sdpSessionHeader
      = ("v=0\r").data ++ '\n'
        :: (("o=- 0 0 IN IP4 127.0.0.1\r").data ++ '\n'
        :: (("s=mediasoup\r").data ++ '\n'
        :: (("c=IN IP4 127.0.0.1\r").data ++ '\n'
        :: (("t=0 0\r").data ++ ['\n'])))) := by decide
  rw [createSdpFile, sdpMLine, ha]
  simp only [if_true, hhdr, crlf]
  simp [List.append_assoc]

theorem createSdp_audio_lines (codec : RtpCodec) (pt rtpPort rtcpPort : Nat)
    (ha : mimeIsAudio codec = true)
    (hname : ∀ c ∈ sdpCodecName codec, c ≠ '\n') :
    splitOnChar '\n' (createSdpFile codec pt rtpPort rtcpPort)
      = ("v=0\r").data :: ("o=- 0 0 IN IP4 127.0.0.1\r").data
        :: ("s=mediasoup\r").data :: ("c=IN IP4 127.0.0.1\r").data
        :: ("t=0 0\r").data
        :: (("m=audio ").data ++ natToChars rtpPort ++ (" RTP/AVP ").data
              ++ natToChars pt ++ ['\r'])
        :: (("a=rtpmap:").data ++ natToChars pt ++ [' '] ++ sdpCodecName codec
              ++ ['/'] ++ natToChars codec.clockRate ++ ['/']
              ++ natToChars (sdpChannels codec) ++ ['\r'])
        :: splitOnChar '\n' (sdpFmtp codec pt ++ ("a=sendonly").data ++ crlf
              ++ ("a=rtcp:").data ++ natToChars rtcpPort ++ crlf) := by
  have hm : ∀ c ∈ ("m=audio ").data ++ natToChars rtpPort ++ (" RTP/AVP ").data
      ++ natToChars pt ++ ['\r'], c ≠ '\n' :=
    noSep_append (noSep_append (noSep_append (noSep_append (by decide)
      (natToChars_ne (by decide) rtpPort)) (by decide))
      (natToChars_ne (by decide) pt)) (by decide)
  have hr : ∀ c ∈ ("a=rtpmap:").data ++ natToChars pt ++ [' '] ++ sdpCodecName codec
      ++ ['/'] ++ natToChars codec.clockRate ++ ['/']
      ++ natToChars (sdpChannels codec) ++ ['\r'], c ≠ '\n' :=
    noSep_append (noSep_append (noSep_append (noSep_append (noSep_append
      (noSep_append (noSep_append (noSep_append (by decide)
        (natToChars_ne (by decide) pt)) (by decide)) hname) (by decide))
      (natToChars_ne (by decide) codec.clockRate)) (by decide))
      (natToChars_ne (by decide) (sdpChannels codec))) (by decide)
  rw [createSdp_audio_shape codec pt rtpPort rtcpPort ha,
    splitOnChar_append_line (by decide) _, splitOnChar_append_line (by decide) _,
    splitOnChar_append_line (by decide) _, splitOnChar_append_line (by decide) _,
    splitOnChar_append_line (by decide) _, splitOnChar_append_line hm _,
    splitOnChar_append_line hr _]

/-! ## Counting media lines -/

theorem isPrefixOf_m_rtcp (rtcpPort : Nat) :
    ((("m=").data).isPrefixOf
      (("a=rtcp:").data ++ natToChars rtcpPort ++ ['\r'])) = false := by
  rw [show ("a=rtcp:").data = 'a' :: ("=rtcp:").data by decide,
    show ("m=").data = 'm' :: ("=").data by decide]
  simp [List.isPrefixOf]

theorem countM_tail (codec : RtpCodec) (pt rtcpPort : Nat)
    (hfm : ∀ x ∈ sdpFmtpParams codec, ∀ c ∈ x, c ≠ '\n') :
    (splitOnChar '\n' (sdpFmtp codec pt ++ ("a=sendonly").data ++ crlf
        ++ ("a=rtcp:").data ++ natToChars rtcpPort ++ crlf)).countP
      (fun l => (("m=").data).isPrefixOf l) = 0 := by
  have hrt := isPrefixOf_m_rtcp rtcpPort
  rcases hps : sdpFmtpParams codec with _ | ⟨p, ps⟩
  · have hf : sdpFmtp codec pt = [] := by rw [sdpFmtp, hps]
    have hsh : sdpFmtp codec pt ++ ("a=sendonly").data ++ crlf
        ++ ("a=rtcp:").data ++ natToChars rtcpPort ++ crlf
        = (("a=sendonly").data ++ ['\r']) ++ '\n'
          :: ((("a=rtcp:").data ++ natToChars rtcpPort ++ ['\r']) ++ '\n' :: []) := by
      rw [hf]
      simp [crlf, List.append_assoc]
    rw [hsh, splitOnChar_append_line (by decide) _,
      splitOnChar_append_line (noSep_append (noSep_append (by decide)
        (natToChars_ne (by decide) rtcpPort)) (by decide)) _]
    simp [List.countP_cons, hrt,
      show splitOnChar '\n' ([] : List Char) = [[]] from rfl]
  · have hfm2 : ∀ x ∈ p :: ps, ∀ c ∈ x, c ≠ '\n' := by
      rw [← hps]
      exact hfm
    have hf : sdpFmtp codec pt = ("a=fmtp:").data ++ natToChars pt ++ [' ']
        ++ joinWith ';' (p :: ps) ++ crlf := by rw [sdpFmtp, hps]
    have hsh : sdpFmtp codec pt ++ ("a=sendonly").data ++ crlf
        ++ ("a=rtcp:").data ++ natToChars rtcpPort ++ crlf
        = (("a=fmtp:").data ++ natToChars pt ++ [' ']
            ++ joinWith ';' (p :: ps) ++ ['\r']) ++ '\n'
          :: ((("a=sendonly").data ++ ['\r']) ++ '\n'
          :: ((("a=rtcp:").data ++ natToChars rtcpPort ++ ['\r']) ++ '\n' :: [])) := by
      rw [hf]
      simp [crlf, List.append_assoc]
    have hfl : ∀ c ∈ ("a=fmtp:").data ++ natToChars pt ++ [' ']
        ++ joinWith ';' (p :: ps) ++ ['\r'], c ≠ '\n' :=
      noSep_append (noSep_append (noSep_append (noSep_append (by decide)
        (natToChars_ne (by decide) pt)) (by decide))
        (joinWith_no_nl hfm2)) (by decide)
    have hfp : ((("m=").data).isPrefixOf (("a=fmtp:").data ++ natToChars pt ++ [' ']
        ++ joinWith ';' (p :: ps) ++ ['\r'])) = false := by
      rw [show ("a=fmtp:").data = 'a' :: ("=fmtp:").data by decide,
        show ("m=").data = 'm' :: ("=").data by decide]
      simp [List.isPrefixOf]
    rw [hsh, splitOnChar_append_line hfl _, splitOnChar_append_line (by decide) _,
      splitOnChar_append_line (noSep_append (noSep_append (by decide)
        (natToChars_ne (by decide) rtcpPort)) (by decide)) _]
    simp [List.countP_cons, hrt, hfp,
      show splitOnChar '\n' ([] : List Char) = [[]] from rfl]

theorem countM_video (codec : RtpCodec) (pt rtpPort rtcpPort : Nat)
    (hv : mimeIsVideo codec = true) (ha : mimeIsAudio codec = false)
    (hmt : ∀ c ∈ codec.mimeType.data, c ≠ '\n')
    (hfm : ∀ x ∈ sdpFmtpParams codec, ∀ c ∈ x, c ≠ '\n') :
    (splitOnChar '\n' (createSdpFile codec pt rtpPort rtcpPort)).countP
      (fun l => (("m=").data).isPrefixOf l) = 1 := by
  rw [createSdp_video_lines codec pt rtpPort rtcpPort hv ha
    (sdpCodecName_no_nl codec hmt)]
  have hm : ((("m=").data).isPrefixOf (("m=video ").data ++ natToChars rtpPort
      ++ (" RTP/AVP ").data ++ natToChars pt ++ ['\r'])) = true := by
    rw [List.isPrefixOf_iff_prefix,
      show ("m=video ").data = ("m=").data ++ ("video ").data by decide]
    exact ((((List.prefix_append _ _).trans (List.prefix_append _ _)).trans
      (List.prefix_append _ _)).trans (List.prefix_append _ _)).trans
      (List.prefix_append _ _)
  have hrl : ((("m=").data).isPrefixOf (("a=rtpmap:").data ++ natToChars pt ++ [' ']
      ++ sdpCodecName codec ++ ['/'] ++ natToChars codec.clockRate ++ ['\r'])) = false := by
    rw [show ("a=rtpmap:").data = 'a' :: ("=rtpmap:").data by decide,
      show ("m=").data = 'm' :: ("=").data by decide]
    simp [List.isPrefixOf]
  have hh1 : ((("m=").data).isPrefixOf (("v=0\r").data)) = false := by decide
  have hh2 : ((("m=").data).isPrefixOf (("o=- 0 0 IN IP4 127.0.0.1\r").data)) = false := by
    decide
  have hh3 : ((("m=").data).isPrefixOf (("s=mediasoup\r").data)) = false := by decide
  have hh4 : ((("m=").data).isPrefixOf (("c=IN IP4 127.0.0.1\r").data)) = false := by
    decide
  have hh5 : ((("m=").data).isPrefixOf (("t=0 0\r").data)) = false := by decide
  simp only [List.countP_cons]
  rw [countM_tail codec pt rtcpPort hfm]
  simp [hm, hrl, hh1, hh2, hh3, hh4, hh5]

theorem countM_audio (codec : RtpCodec) (pt rtpPort rtcpPort : Nat)
    (ha : mimeIsAudio codec = true)
    (hmt : ∀ c ∈ codec.mimeType.data, c ≠ '\n')
    (hfm : ∀ x ∈ sdpFmtpParams codec, ∀ c ∈ x, c ≠ '\n') :
    (splitOnChar '\n' (createSdpFile codec pt rtpPort rtcpPort)).countP
      (fun l => (("m=").data).isPrefixOf l) = 1 := by
  rw [createSdp_audio_lines codec pt rtpPort rtcpPort ha
    (sdpCodecName_no_nl codec hmt)]
  have hm : ((("m=").data).isPrefixOf (("m=audio ").data ++ natToChars rtpPort
      ++ (" RTP/AVP ").data ++ natToChars pt ++ ['\r'])) = true := by
    rw [List.isPrefixOf_iff_prefix,
      show ("m=audio ").data = ("m=").data ++ ("audio ").data by decide]
    exact ((((List.prefix_append _ _).trans (List.prefix_append _ _)).trans
      (List.prefix_append _ _)).trans (List.prefix_append _ _)).trans
      (List.prefix_append _ _)
  have hrl : ((("m=").data).isPrefixOf (("a=rtpmap:").data ++ natToChars pt ++ [' ']
      ++ sdpCodecName codec ++ ['/'] ++ natToChars codec.clockRate ++ ['/']
      ++ natToChars (sdpChannels codec) ++ ['\r'])) = false := by
    rw [show ("a=rtpmap:").data = 'a' :: ("=rtpmap:").data by decide,
      show ("m=").data = 'm' :: ("=").data by decide]
    simp [List.isPrefixOf]
  have hh1 : ((("m=").data).isPrefixOf (("v=0\r").data)) = false := by decide
  have hh2 : ((("m=").data).isPrefixOf (("o=- 0 0 IN IP4 127.0.0.1\r").data)) = false := by
    decide
  have hh3 : ((("m=").data).isPrefixOf (("s=mediasoup\r").data)) = false := by decide
  have hh4 : ((("m=").data).isPrefixOf (("c=IN IP4 127.0.0.1\r").data)) = false := by
    decide
  have hh5 : ((("m=").data).isPrefixOf (("t=0 0\r").data)) = false := by decide
  simp only [List.countP_cons]
  rw [countM_tail codec pt rtcpPort hfm]
  simp [hm, hrl, hh1, hh2, hh3, hh4, hh5]

/-! ## Codec-name table and fmtp structure -/

theorem sdpCodecNameOf_vp8 (sub : List Char) (hsub : lowerStr sub = ("vp8").data) :
    sdpCodecNameOf (("video/").data ++ sub) = ("VP8").data := by
  have hl : lowerStr (("video/").data ++ sub) = ("video/vp8").data := by
    rw [show lowerStr (("video/").data ++ sub)
        = lowerStr (("video/").data) ++ lowerStr sub from List.map_append lowChar _ _,
      hsub]
    decide
  have hA : mimeIsAudioOf (("video/").data ++ sub) = false := by
    rw [mimeIsAudioOf, hl]; decide
  have hV : mimeIsVideoOf (("video/").data ++ sub) = true := by
    rw [mimeIsVideoOf, hl]; decide
  have h8 : mimeHasOf ("vp8") (("video/").data ++ sub) = true := by
    rw [mimeHasOf, hl]; decide
  rw [sdpCodecNameOf, hA, hV, h8]
  simp

theorem sdpCodecNameOf_vp9 (sub : List Char) (hsub : lowerStr sub = ("vp9").data) :
    sdpCodecNameOf (("video/").data ++ sub) = ("VP9").data := by
  have hl : lowerStr (("video/").data ++ sub) = ("video/vp9").data := by
    rw [show lowerStr (("video/").data ++ sub)
        = lowerStr (("video/").data) ++ lowerStr sub from List.map_append lowChar _ _,
      hsub]
    decide
  have hA : mimeIsAudioOf (("video/").data ++ sub) = false := by
    rw [mimeIsAudioOf, hl]; decide
  have hV : mimeIsVideoOf (("video/").data ++ sub) = true := by
    rw [mimeIsVideoOf, hl]; decide
  have h8 : mimeHasOf ("vp8") (("video/").data ++ sub) = false := by
    rw [mimeHasOf, hl]; decide
  have h9 : mimeHasOf ("vp9") (("video/").data ++ sub) = true := by
    rw [mimeHasOf, hl]; decide
  rw [sdpCodecNameOf, hA, hV, h8, h9]
  simp

theorem sdpCodecNameOf_h264 (sub : List Char) (hsub : lowerStr sub = ("h264").data) :
    sdpCodecNameOf (("video/").data ++ sub) = ("H264").data := by
  have hl : lowerStr (("video/").data ++ sub) = ("video/h264").data := by
    rw [show lowerStr (("video/").data ++ sub)
        = lowerStr (("video/").data) ++ lowerStr sub from List.map_append lowChar _ _,
      hsub]
    decide
  have hA : mimeIsAudioOf (("video/").data ++ sub) = false := by
    rw [mimeIsAudioOf, hl]; decide
  have hV : mimeIsVideoOf (("video/").data ++ sub) = true := by
    rw [mimeIsVideoOf, hl]; decide
  have h8 : mimeHasOf ("vp8") (("video/").data ++ sub) = false := by
    rw [mimeHasOf, hl]; decide
  have h9 : mimeHasOf ("vp9") (("video/").data ++ sub) = false := by
    rw [mimeHasOf, hl]; decide
  have h64 : mimeHasOf ("h264") (("video/").data ++ sub) = true := by
    rw [mimeHasOf, hl]; decide
  rw [sdpCodecNameOf, hA, hV, h8, h9, h64]
  simp

theorem sdpCodecNameOf_opus (sub : List Char) (hsub : lowerStr sub = ("opus").data) :
    sdpCodecNameOf (("audio/").data ++ sub) = ("OPUS").data := by
  have hl : lowerStr (("audio/").data ++ sub) = ("audio/opus").data := by
    rw [show lowerStr (("audio/").data ++ sub)
        = lowerStr (("audio/").data) ++ lowerStr sub from List.map_append lowChar _ _,
      hsub]
    decide
  have hA : mimeIsAudioOf (("audio/").data ++ sub) = true := by
    rw [mimeIsAudioOf, hl]; decide
  have hop : mimeHasOf ("opus") (("audio/").data ++ sub) = true := by
    rw [mimeHasOf, hl]; decide
  rw [sdpCodecNameOf, hA, hop]
  simp

theorem sdpCodecNameOf_aac (sub : List Char) (hsub : lowerStr sub = ("aac").data) :
    sdpCodecNameOf (("audio/").data ++ sub) = ("MPEG4-GENERIC").data := by
  have hl : lowerStr (("audio/").data ++ sub) = ("audio/aac").data := by
    rw [show lowerStr (("audio/").data ++ sub)
        = lowerStr (("audio/").data) ++ lowerStr sub from List.map_append lowChar _ _,
      hsub]
    decide
  have hA : mimeIsAudioOf (("audio/").data ++ sub) = true := by
    rw [mimeIsAudioOf, hl]; decide
  have hop : mimeHasOf ("opus") (("audio/").data ++ sub) = false := by
    rw [mimeHasOf, hl]; decide
  have haac : mimeHasOf ("aac") (("audio/").data ++ sub) = true := by
    rw [mimeHasOf, hl]; decide
  rw [sdpCodecNameOf, hA, hop, haac]
  simp

theorem sdpCodecNameOf_video_fallback (mt : List Char)
    (ha : mimeIsAudioOf mt = false) (hv : mimeIsVideoOf mt = true)
    (h8 : mimeHasOf ("vp8") mt = false) (h9 : mimeHasOf ("vp9") mt = false)
    (h64 : mimeHasOf ("h264") mt = false) :
    sdpCodecNameOf mt = upperStr (subtypeOf mt) := by
  rw [sdpCodecNameOf, ha, hv, h8, h9, h64]
  simp

theorem sdpCodecNameOf_audio_fallback (mt : List Char)
    (ha : mimeIsAudioOf mt = true)
    (hop : mimeHasOf ("opus") mt = false) (haac : mimeHasOf ("aac") mt = false) :
    sdpCodecNameOf mt = upperStr (subtypeOf mt) := by
  rw [sdpCodecNameOf, ha, hop, haac]
  simp

theorem sdpFmtp_only (codec : RtpCodec) (pt : Nat) (h : sdpFmtp codec pt ≠ []) :
    (mimeIsAudio codec = true ∧ mimeHas ("aac") codec = true)
    ∨ (mimeIsVideo codec = true ∧ mimeHas ("h264") codec = true) := by
  rw [sdpFmtp] at h
  rcases hps : sdpFmtpParams codec with _ | ⟨p, ps⟩
  · rw [hps] at h
    simp at h
  · rw [sdpFmtpParams] at hps
    split at hps
    · next haud =>
      split at hps
      · exact absurd hps (by simp)
      · split at hps
        · next haac => exact Or.inl ⟨haud, haac⟩
        · exact absurd hps (by simp)
    · split at hps
      · next hvid =>
        split at hps
        · exact absurd hps (by simp)
        · split at hps
          · exact absurd hps (by simp)
          · split at hps
            · next h64 => exact Or.inr ⟨hvid, h64⟩
            · exact absurd hps (by simp)
      · exact absurd hps (by simp)

theorem sdpFmtp_h264 (codec : RtpCodec) (pt : Nat) (pm pl : String)
    (ha : mimeIsAudio codec = false) (hv : mimeIsVideo codec = true)
    (h8 : mimeHas ("vp8") codec = false) (h9 : mimeHas ("vp9") codec = false)
    (h64 : mimeHas ("h264") codec = true)
    (hpm : codec.packetizationMode = some pm)
    (hpl : codec.profileLevelId = some pl) :
    sdpFmtp codec pt = ("a=fmtp:").data ++ natToChars pt ++ [' ']
      ++ ((("packetization-mode=").data ++ pm.data)
          ++ ';' :: (("profile-level-id=").data ++ pl.data)) ++ crlf := by
  have hps : sdpFmtpParams codec
      = [("packetization-mode=").data ++ pm.data,
         ("profile-level-id=").data ++ pl.data] := by
    rw [sdpFmtpParams, ha, hv, h8, h9, h64, hpm, hpl]
    simp
  rw [sdpFmtp, hps]
  rfl

theorem sdpFmtp_aac (codec : RtpCodec) (pt : Nat) (pl : String)
    (ha : mimeIsAudio codec = true)
    (hop : mimeHas ("opus") codec = false) (haac : mimeHas ("aac") codec = true)
    (hpl : codec.profileLevelId = some pl) :
    sdpFmtp codec pt = ("a=fmtp:").data ++ natToChars pt ++ [' ']
      ++ (("profile-level-id=").data ++ pl.data) ++ crlf := by
  have hps : sdpFmtpParams codec = [("profile-level-id=").data ++ pl.data] := by
    rw [sdpFmtpParams, ha, hop, haac, hpl]
    simp
  rw [sdpFmtp, hps]
  rfl

theorem sdpCodecName_known (codec : RtpCodec) (hv : mimeIsVideo codec = true)
    (ha : mimeIsAudio codec = false)
    (hfam : mimeHas ("vp8") codec = true ∨ mimeHas ("vp9") codec = true
      ∨ mimeHas ("h264") codec = true) :
    sdpCodecName codec = ("VP8").data ∨ sdpCodecName codec = ("VP9").data
      ∨ sdpCodecName codec = ("H264").data := by
  rw [sdpCodecName, sdpCodecNameOf]
  rw [show mimeIsAudioOf codec.mimeType.data = mimeIsAudio codec from rfl, ha,
    show mimeIsVideoOf codec.mimeType.data = mimeIsVideo codec from rfl, hv]
  simp only [Bool.false_eq_true, if_false, if_true]
  by_cases h8 : mimeHasOf ("vp8") codec.mimeType.data = true
  · simp [h8]
  · by_cases h9 : mimeHasOf ("vp9") codec.mimeType.data = true
    · simp [h8, h9]
    · have h64 : mimeHasOf ("h264") codec.mimeType.data = true := by
        rcases hfam with h | h | h
        · exact absurd h h8
        · exact absurd h h9
        · exact h
      simp [h8, h9, h64]

/-- C7: for every codec descriptor that the synthesizer classifies as
video (`kind=video`) with a known video codec family, parsing the
synthesized descriptor back for the payload type (fourth field of the
`m=video` media line) and the clock rate (after the codec name's `/` on
the `a=rtpmap` attribute line) returns exactly the payload type and
clock rate that went in, for every payload type, port pair and
parameter map. -/
theorem claim7_descriptor_roundtrip (codec : RtpCodec) (pt rtpPort rtcpPort : Nat)
    (hv : mimeIsVideo codec = true) (ha : mimeIsAudio codec = false)
    (hfam : mimeHas ("vp8") codec = true ∨ mimeHas ("vp9") codec = true
      ∨ mimeHas ("h264") codec = true) :
    parseSdpVideoPayloadType (createSdpFile codec pt rtpPort rtcpPort) = some pt
    ∧ parseSdpClockRate (createSdpFile codec pt rtpPort rtcpPort)
        = some codec.clockRate := by
  have hknown := sdpCodecName_known codec hv ha hfam
  have hname : ∀ c ∈ sdpCodecName codec, c ≠ '\n' := by
    rcases hknown with h | h | h <;> rw [h] <;> decide
  have hns : ∀ c ∈ sdpCodecName codec, c ≠ '/' := by
    rcases hknown with h | h | h <;> rw [h] <;> decide
  exact ⟨parse_payloadType_roundtrip codec pt rtpPort rtcpPort hv ha hname,
    parse_clockRate_roundtrip codec pt rtpPort rtcpPort hv ha hname hns⟩

theorem claim7_witness :
    mimeIsVideo ⟨"video/H264", 90000, none, some "1", some "42e01f"⟩ = true
    ∧ mimeIsAudio ⟨"video/H264", 90000, none, some "1", some "42e01f"⟩ = false
    ∧ parseSdpVideoPayloadType
        (createSdpFile ⟨"video/H264", 90000, none, some "1", some "42e01f"⟩
          101 20000 20001) = some 101
    ∧ parseSdpClockRate
        (createSdpFile ⟨"video/H264", 90000, none, some "1", some "42e01f"⟩
          101 20000 20001) = some 90000 :=
  ⟨by decide, by decide,
    (claim7_descriptor_roundtrip ⟨"video/H264", 90000, none, some "1", some "42e01f"⟩
      101 20000 20001 (by decide) (by decide) (Or.inr (Or.inr (by decide)))).1,
    (claim7_descriptor_roundtrip ⟨"video/H264", 90000, none, some "1", some "42e01f"⟩
      101 20000 20001 (by decide) (by decide) (Or.inr (Or.inr (by decide)))).2⟩

/-- C8: every call of the synthesizer on a codec it classifies as audio
or video (with line-break-free MIME type and parameter values, as the
data model guarantees) emits exactly one `m=` media line; the codec name
comes from the fixed table vp8→VP8, vp9→VP9, h264→H264, opus→OPUS,
aac→MPEG4-GENERIC with uppercase-of-subtype fallback; and an `a=fmtp`
attribute is emitted only for the H264 video family
(packetization-mode, profile-level-id) and the AAC audio family
(profile-level-id). -/
theorem claim8_synthesizer_shape :
    (∀ (codec : RtpCodec) (pt rtpPort rtcpPort : Nat),
      (mimeIsAudio codec = true ∨ mimeIsVideo codec = true) →
      (∀ c ∈ codec.mimeType.data, c ≠ '\n') →
      (∀ v, codec.packetizationMode = some v → ∀ c ∈ v.data, c ≠ '\n') →
      (∀ v, codec.profileLevelId = some v → ∀ c ∈ v.data, c ≠ '\n') →
      (splitOnChar '\n' (createSdpFile codec pt rtpPort rtcpPort)).countP
        (fun l => (("m=").data).isPrefixOf l) = 1)
    ∧ (∀ sub, lowerStr sub = ("vp8").data →
        sdpCodecNameOf (("video/").data ++ sub) = ("VP8").data)
    ∧ (∀ sub, lowerStr sub = ("vp9").data →
        sdpCodecNameOf (("video/").data ++ sub) = ("VP9").data)
    ∧ (∀ sub, lowerStr sub = ("h264").data →
        sdpCodecNameOf (("video/").data ++ sub) = ("H264").data)
    ∧ (∀ sub, lowerStr sub = ("opus").data →
        sdpCodecNameOf (("audio/").data ++ sub) = ("OPUS").data)
    ∧ (∀ sub, lowerStr sub = ("aac").data →
        sdpCodecNameOf (("audio/").data ++ sub) = ("MPEG4-GENERIC").data)
    ∧ (∀ mt, mimeIsAudioOf mt = false → mimeIsVideoOf mt = true →
        mimeHasOf ("vp8") mt = false → mimeHasOf ("vp9") mt = false →
        mimeHasOf ("h264") mt = false →
        sdpCodecNameOf mt = upperStr (subtypeOf mt))
    ∧ (∀ mt, mimeIsAudioOf mt = true → mimeHasOf ("opus") mt = false →
        mimeHasOf ("aac") mt = false →
        sdpCodecNameOf mt = upperStr (subtypeOf mt))
    ∧ (∀ (codec : RtpCodec) (pt : Nat), sdpFmtp codec pt ≠ [] →
        (mimeIsAudio codec = true ∧ mimeHas ("aac") codec = true)
        ∨ (mimeIsVideo codec = true ∧ mimeHas ("h264") codec = true))
    ∧ (∀ (codec : RtpCodec) (pt : Nat) (pm pl : String),
        mimeIsAudio codec = false → mimeIsVideo codec = true →
        mimeHas ("vp8") codec = false → mimeHas ("vp9") codec = false →
        mimeHas ("h264") codec = true →
        codec.packetizationMode = some pm → codec.profileLevelId = some pl →
        sdpFmtp codec pt = ("a=fmtp:").data ++ natToChars pt ++ [' ']
          ++ ((("packetization-mode=").data ++ pm.data)
              ++ ';' :: (("profile-level-id=").data ++ pl.data)) ++ crlf)
    ∧ (∀ (codec : RtpCodec) (pt : Nat) (pl : String),
        mimeIsAudio codec = true → mimeHas ("opus") codec = false →
        mimeHas ("aac") codec = true → codec.profileLevelId = some pl →
        sdpFmtp codec pt = ("a=fmtp:").data ++ natToChars pt ++ [' ']
          ++ (("profile-level-id=").data ++ pl.data) ++ crlf) := by
  refine ⟨?_, sdpCodecNameOf_vp8, sdpCodecNameOf_vp9, sdpCodecNameOf_h264,
    sdpCodecNameOf_opus, sdpCodecNameOf_aac, sdpCodecNameOf_video_fallback,
    sdpCodecNameOf_audio_fallback, sdpFmtp_only, sdpFmtp_h264, sdpFmtp_aac⟩
  intro codec pt rtpPort rtcpPort hclass hmt hpm hpl
  have hfm := sdpFmtpParams_no_nl codec hpm hpl
  rcases hA : mimeIsAudio codec with _ | _
  · rcases hclass with hcl | hcl
    · rw [hA] at hcl
      exact absurd hcl (by simp)
    · exact countM_video codec pt rtpPort rtcpPort hcl hA hmt hfm
  · exact countM_audio codec pt rtpPort rtcpPort hA hmt hfm

theorem claim8_witness :
    ((splitOnChar '\n'
        (createSdpFile ⟨"audio/opus", 48000, some 2, none, none⟩ 111 20002 20003)).countP
      (fun l => (("m=").data).isPrefixOf l) = 1)
    ∧ sdpCodecNameOf (("video/").data ++ ("VP8").data) = ("VP8").data
    ∧ sdpCodecNameOf (("video/").data ++ ("vp9").data) = ("VP9").data
    ∧ sdpCodecNameOf (("video/").data ++ ("H264").data) = ("H264").data
    ∧ sdpCodecNameOf (("audio/").data ++ ("opus").data) = ("OPUS").data
    ∧ sdpCodecNameOf (("audio/").data ++ ("AAC").data) = ("MPEG4-GENERIC").data
    ∧ sdpCodecNameOf (("video/").data ++ ("AV1").data)
        = upperStr (subtypeOf (("video/AV1").data))
    ∧ sdpCodecNameOf (("audio/").data ++ ("G722").data)
        = upperStr (subtypeOf (("audio/G722").data))
    ∧ ((mimeIsAudio ⟨"audio/AAC", 48000, none, none, some "1"⟩ = true
        ∧ mimeHas ("aac") ⟨"audio/AAC", 48000, none, none, some "1"⟩ = true)
      ∨ (mimeIsVideo ⟨"audio/AAC", 48000, none, none, some "1"⟩ = true
        ∧ mimeHas ("h264") ⟨"audio/AAC", 48000, none, none, some "1"⟩ = true))
    ∧ sdpFmtp ⟨"video/H264", 90000, none, some "1", some "42e01f"⟩ 101
        = ("a=fmtp:").data ++ natToChars 101 ++ [' ']
          ++ ((("packetization-mode=").data ++ ("1").data)
              ++ ';' :: (("profile-level-id=").data ++ ("42e01f").data)) ++ crlf
    ∧ sdpFmtp ⟨"audio/AAC", 48000, none, none, some "1"⟩ 97
        = ("a=fmtp:").data ++ natToChars 97 ++ [' ']
          ++ (("profile-level-id=").data ++ ("1").data) ++ crlf :=
  ⟨claim8_synthesizer_shape.1 ⟨"audio/opus", 48000, some 2, none, none⟩ 111 20002 20003
      (Or.inl (by decide)) (by decide) (fun v hv => by simp at hv)
      (fun v hv => by simp at hv),
    claim8_synthesizer_shape.2.1 (("VP8").data) (by decide),
    claim8_synthesizer_shape.2.2.1 (("vp9").data) (by decide),
    claim8_synthesizer_shape.2.2.2.1 (("H264").data) (by decide),
    claim8_synthesizer_shape.2.2.2.2.1 (("opus").data) (by decide),
    claim8_synthesizer_shape.2.2.2.2.2.1 (("AAC").data) (by decide),
    claim8_synthesizer_shape.2.2.2.2.2.2.1 (("video/AV1").data) (by decide) (by decide)
      (by decide) (by decide) (by decide),
    claim8_synthesizer_shape.2.2.2.2.2.2.2.1 (("audio/G722").data) (by decide)
      (by decide) (by decide),
    claim8_synthesizer_shape.2.2.2.2.2.2.2.2.1
      ⟨"audio/AAC", 48000, none, none, some "1"⟩ 97 (by decide),
    claim8_synthesizer_shape.2.2.2.2.2.2.2.2.2.1
      ⟨"video/H264", 90000, none, some "1", some "42e01f"⟩ 101 ("1") ("42e01f")
      (by decide) (by decide) (by decide) (by decide) (by decide) rfl rfl,
    claim8_synthesizer_shape.2.2.2.2.2.2.2.2.2.2
      ⟨"audio/AAC", 48000, none, none, some "1"⟩ 97 ("1")
      (by decide) (by decide) (by decide) rfl⟩

/-- C9 as stated is false: the per-producer bridge's publish loop runs
every 2000 ms while its transcoder writes 2000 ms segments
(`-hls_time 2`) — the period equals the segment duration instead of
being strictly shorter. -/
theorem claim9_counterexample :
    argValueAfter ("-hls_time")
        (hlsBridgeFfmpegArgs true true ("in.sdp") ("seg") ("pl"))
      = some hlsBridgeHlsTime
    ∧ msOfHlsTime hlsBridgeHlsTime = some 2000
    ∧ hlsBridgeCopyIntervalMs = 2000
    ∧ ¬(hlsBridgeCopyIntervalMs < 2000) :=
  ⟨rfl, rfl, rfl, by decide⟩

/-- C9 (amended): every publish loop's period is at most its
transcoder's segment duration; the composite loop (1000 ms) is strictly
shorter than its 2000 ms segments, while the per-producer loop
(2000 ms) exactly equals its 2000 ms segments. -/
theorem claim9_publish_period_bounds (hv ha : Bool) :
    argValueAfter ("-hls_time")
        (hlsBridgeFfmpegArgs hv ha ("in.sdp") ("seg") ("pl"))
      = some hlsBridgeHlsTime
    ∧ msOfHlsTime hlsBridgeHlsTime = some 2000
    ∧ hlsBridgeCopyIntervalMs = 2000
    ∧ argValueAfter ("-hls_time") (compositeHlsOutputArgs ("seg") ("pl"))
        = some compositeHlsTime
    ∧ msOfHlsTime compositeHlsTime = some 2000
    ∧ compositeCopyIntervalMs = 1000
    ∧ compositeCopyIntervalMs < 2000
    ∧ hlsBridgeCopyIntervalMs ≤ 2000 := by
  rcases hv with _ | _ <;> rcases ha with _ | _ <;>
    exact ⟨rfl, rfl, rfl, rfl, rfl, rfl, by decide, by decide⟩

end MediaSync
